import Mathlib

/-!
# Kitchen clock: countdown value, alarm sequencer and main loop

A shallow embedding of `lib/KitchenTimer/Kitchentimer.hpp`,
`lib/AlarmTone/AlarmTone.hpp` and the state machine of `src/main.cpp`.

Machine integers are natural numbers; every assignment to a `uint32_t`,
`uint16_t` or `uint8_t` object is reduced modulo the width of that object.
Arguments of type `size_t` are natural numbers: the results below do not depend
on the width of `size_t`, because every `size_t` expression of the source is
stored into a 16 or 32 bit object before it is used.

Calls of `millis()` are inputs: each function takes one clock reading for each
call of `millis()` it can make.  Display and buzzer calls of `main.cpp` do not
touch the program state and are left out; the buzzer calls of `AlarmTone` are
returned as a list of events.
-/

namespace KitchenClock

/-! ## Machine arithmetic -/

/-- Number of values of a `uint32_t`. -/
def UINT32_MOD : Nat := 4294967296

/-- Number of values of a `uint16_t`. -/
def UINT16_MOD : Nat := 65536

/-- Number of values of a `uint8_t`. -/
def UINT8_MOD : Nat := 256

/-- Unsigned 32 bit addition `a + b`. -/
def add32 (a b : Nat) : Nat := (a + b) % UINT32_MOD

/-- Unsigned 32 bit subtraction `a - b` (wraps around below zero). -/
def sub32 (a b : Nat) : Nat := (a % UINT32_MOD + UINT32_MOD - b % UINT32_MOD) % UINT32_MOD

/-! ## Kitchentimer.hpp -/

/-- Source constant `TIMEUNIT_SEC`. -/
def TIMEUNIT_SEC : Nat := 1

/-- Source constant `TIMEUNIT_MIN`. -/
def TIMEUNIT_MIN : Nat := 60

/-- Source constant `MAX_SECONDS`. -/
def MAX_SECONDS : Nat := 59

/-- Source constant `MAX_MINUTES`. -/
def MAX_MINUTES : Nat := 60

/-- Source constant `MAX_TOTALSECONDS`, defined as `MAX_MINUTES * TIMEUNIT_MIN`. -/
def MAX_TOTALSECONDS : Nat := MAX_MINUTES * TIMEUNIT_MIN

/-- Source enumeration `KitchenTimerState`. -/
inductive KitchenTimerState where
  | off
  | active
  | alarm
deriving DecidableEq, Repr

/-- Source enumeration `ActiveUnit`. -/
inductive ActiveUnit where
  | seconds
  | minutes
deriving DecidableEq, Repr

/-- Data members of class `KitchenTimer`, with their default member initialisers. -/
structure KitchenTimer where
  totalSeconds : Nat := 0
  timeStamp : Nat := 0
  multiplier : Nat := TIMEUNIT_SEC
  state : KitchenTimerState := KitchenTimerState.off
  activeUnit : ActiveUnit := ActiveUnit.seconds
deriving DecidableEq, Repr

namespace KitchenTimer

/-- Method `operator()(duration)`; `now` is the value returned by `millis()`. -/
def elapsed (kT : KitchenTimer) (now duration : Nat) : Bool :=
  if sub32 now kT.timeStamp ≥ duration then true else false

/-- Method `start()`; `now` is the value returned by `millis()`. -/
def start (kT : KitchenTimer) (now : Nat) : KitchenTimer :=
  { kT with timeStamp := now % UINT32_MOD }

/-- Method `getMinutes()`. -/
def getMinutes (kT : KitchenTimer) : Nat := kT.totalSeconds / TIMEUNIT_MIN

/-- Method `getSeconds()`. -/
def getSeconds (kT : KitchenTimer) : Nat := kT.totalSeconds % TIMEUNIT_MIN

/-- Method `setUnitSeconds()`. -/
def setUnitSeconds (kT : KitchenTimer) : KitchenTimer :=
  { kT with multiplier := TIMEUNIT_SEC, activeUnit := ActiveUnit.seconds }

/-- Method `setUnitMinutes()`. -/
def setUnitMinutes (kT : KitchenTimer) : KitchenTimer :=
  { kT with multiplier := TIMEUNIT_MIN, activeUnit := ActiveUnit.minutes }

/-- Method `timeIsUp()`. -/
def timeIsUp (kT : KitchenTimer) : Bool := !(decide (kT.totalSeconds ≠ 0))

/-- Method `setState(s)`. -/
def setState (kT : KitchenTimer) (s : KitchenTimerState) : KitchenTimer :=
  { kT with state := s }

/-- Method `getState()`. -/
def getState (kT : KitchenTimer) : KitchenTimerState := kT.state

/-- Method `getActiveUnit()`. -/
def getActiveUnit (kT : KitchenTimer) : ActiveUnit := kT.activeUnit

/-- Method `setMinutes(m)`.  The local `minutes` is a `uint16_t`. -/
def setMinutes (kT : KitchenTimer) (m : Nat) : KitchenTimer :=
  let t1 := kT.totalSeconds % TIMEUNIT_MIN
  let minutes := ((if m > MAX_MINUTES then MAX_MINUTES else TIMEUNIT_MIN) * m) % UINT16_MOD
  let t2 := add32 t1 minutes
  { kT with totalSeconds := if t2 > MAX_TOTALSECONDS then MAX_TOTALSECONDS else t2 }

/-- Method `setSeconds(s)`. -/
def setSeconds (kT : KitchenTimer) (s : Nat) : KitchenTimer :=
  let t1 := (kT.totalSeconds / TIMEUNIT_MIN) * TIMEUNIT_MIN
  let t2 := add32 t1 (if s > MAX_SECONDS then MAX_SECONDS else if t1 = MAX_TOTALSECONDS then 0 else s)
  { kT with totalSeconds := t2 }

/-- Pre-decrement `operator--()`. -/
def decrement (kT : KitchenTimer) : KitchenTimer :=
  let save := kT.totalSeconds
  let t1 := sub32 kT.totalSeconds (1 * kT.multiplier)
  let t2 := if t1 > MAX_TOTALSECONDS then (if kT.multiplier = TIMEUNIT_SEC then 0 else save % TIMEUNIT_MIN) else t1
  { kT with totalSeconds := t2 }

/-- Post-decrement `operator--(int)`: the returned copy and the updated object. -/
def postDecrement (kT : KitchenTimer) : KitchenTimer × KitchenTimer :=
  let temp := kT
  (temp, kT.decrement)

/-- Pre-increment `operator++()`. -/
def increment (kT : KitchenTimer) : KitchenTimer :=
  let t1 := add32 kT.totalSeconds (1 * kT.multiplier)
  { kT with totalSeconds := if t1 > MAX_TOTALSECONDS then MAX_TOTALSECONDS else t1 }

/-- Post-increment `operator++(int)`: the returned copy and the updated object. -/
def postIncrement (kT : KitchenTimer) : KitchenTimer × KitchenTimer :=
  let temp := kT
  (temp, kT.increment)

/-- Constructor `KitchenTimer(m, s)`: the default member values, then
`setMinutes(m); setSeconds(s)`. -/
def construct (m s : Nat) : KitchenTimer :=
  (({} : KitchenTimer).setMinutes m).setSeconds s

end KitchenTimer

/-- One public mutation of a `KitchenTimer` value. -/
inductive TimerOp where
  | setMinutes (m : Nat)
  | setSeconds (s : Nat)
  | increment
  | decrement
  | setUnitSeconds
  | setUnitMinutes
deriving DecidableEq, Repr

/-- Effect of one mutation. -/
def TimerOp.apply : TimerOp → KitchenTimer → KitchenTimer
  | TimerOp.setMinutes m, kT => kT.setMinutes m
  | TimerOp.setSeconds s, kT => kT.setSeconds s
  | TimerOp.increment, kT => kT.increment
  | TimerOp.decrement, kT => kT.decrement
  | TimerOp.setUnitSeconds, kT => kT.setUnitSeconds
  | TimerOp.setUnitMinutes, kT => kT.setUnitMinutes

/-- Effect of a sequence of mutations, applied from left to right. -/
def applyOps (kT : KitchenTimer) (ops : List TimerOp) : KitchenTimer :=
  ops.foldl (fun acc op => op.apply acc) kT

/-- The seconds argument of a mutation, if it has one, is a valid seconds value. -/
def TimerOp.secondsInRange : TimerOp → Bool
  | TimerOp.setSeconds s => decide (s ≤ MAX_SECONDS)
  | _ => true

/-! ## AlarmTone.hpp -/

/-- Data member of class `TimerHelper`. -/
structure TimerHelper where
  timeStamp : Nat := 0
deriving DecidableEq, Repr

namespace TimerHelper

/-- Method `start()`; `now` is the value returned by `millis()`. -/
def start (_t : TimerHelper) (now : Nat) : TimerHelper :=
  { timeStamp := now % UINT32_MOD }

/-- Method `operator()(duration)`; `now` is the value returned by `millis()`. -/
def elapsed (t : TimerHelper) (now duration : Nat) : Bool :=
  if sub32 now t.timeStamp ≥ duration then true else false

end TimerHelper

/-- Source constant `ALARM_DELAY_MS`. -/
def ALARM_DELAY_MS : Nat := 1500

/-- Source constant `NOTE_F5`. -/
def NOTE_F5 : Nat := 698

/-- Source constant `NOTE_A5`. -/
def NOTE_A5 : Nat := 880

/-- Source constant `MAX_TONES`. -/
def MAX_TONES : Nat := 2

/-- A call of the Arduino buzzer interface.  The frequency of `tone` is the
result of reading `tones[tonesIndex]`; `none` stands for a read outside the
array. -/
inductive BuzzerEvent where
  | tone (pin : Nat) (frequency : Option Nat) (duration : Nat)
  | noTone (pin : Nat)
deriving DecidableEq, Repr

/-- Data members of class `AlarmTone`, with their default member initialisers.
The array `tones[MAX_TONES]` is a list. -/
structure AlarmTone where
  pin : Nat
  pauseBetweenNotes : Nat := 10
  toneDuration : Nat := 150
  tones : List Nat
  tonesIndex : Nat := 0
  toneTimer : TimerHelper := {}
  delayTimer : TimerHelper := {}
  outputTone : Bool := false
  alarmFinished : Bool := false
deriving DecidableEq, Repr

namespace AlarmTone

/-- Constructor `AlarmTone(pin_, toneA, toneB)`. -/
def construct (pin toneA toneB : Nat) : AlarmTone :=
  { pin := pin % UINT8_MOD, tones := [toneA % UINT16_MOD, toneB % UINT16_MOD] }

/-- Method `play()`.  `tCheck` is the clock reading of the `toneTimer(...)` test,
`tStart` the one of `toneTimer.start()`. -/
def play (a : AlarmTone) (tCheck tStart : Nat) : AlarmTone × List BuzzerEvent :=
  match a.alarmFinished with
  | true => (a, [])
  | false =>
    match a.outputTone with
    | true =>
      if a.toneTimer.elapsed tCheck a.toneDuration then
        ({ a with outputTone := false }, [BuzzerEvent.noTone a.pin])
      else (a, [])
    | false =>
      if a.toneTimer.elapsed tCheck a.pauseBetweenNotes then
        let ev := BuzzerEvent.tone a.pin (a.tones.get? a.tonesIndex) a.toneDuration
        let a1 := { a with outputTone := true, tonesIndex := (a.tonesIndex + 1) % UINT8_MOD }
        let a2 := if a1.tonesIndex > MAX_TONES - 1 then { a1 with alarmFinished := true, tonesIndex := 0 } else a1
        ({ a2 with toneTimer := a2.toneTimer.start tStart }, [ev])
      else (a, [])

/-- Method `reset()`. -/
def reset (a : AlarmTone) : AlarmTone :=
  { a with outputTone := false, alarmFinished := false }

/-- Method `playAlarm()`.  `tDelay` is the clock reading of the
`delayTimer(ALARM_DELAY_MS)` test, `tDelayStart` the one of `delayTimer.start()`;
`tTone` and `tToneStart` are the readings of `play()`. -/
def playAlarm (a : AlarmTone) (tDelay tDelayStart tTone tToneStart : Nat) : AlarmTone × List BuzzerEvent :=
  let a1 := if a.delayTimer.elapsed tDelay ALARM_DELAY_MS then
      { a.reset with delayTimer := a.reset.delayTimer.start tDelayStart }
    else a
  a1.play tTone tToneStart

end AlarmTone

/-! ## main.cpp -/

/-- Source constant `SECOND`. -/
def SECOND : Nat := 997

/-- Source constant `TIMEOUT`. -/
def TIMEOUT : Nat := 10000

/-- Modelled from the spec: the result type of `ButtonSL::tick()`, declared in
`Button_SL.hpp`, which is not part of the sources at hand.  The spec gives the
button poll the three results `notPressed`, `shortPressed`, `longPressed`, and
these are the three values `main.cpp` switches on. -/
inductive ButtonState where
  | notPressed
  | shortPressed
  | longPressed
deriving DecidableEq, Repr

/-- Modelled from the spec: the result type of `RotaryEncoder::getDirection()`
of the encoder library, which is not part of the sources at hand.  The spec
gives the encoder poll the results none, clockwise and counterclockwise;
the names are those `askEncoder` switches on. -/
inductive Direction where
  | NOROTATION
  | CLOCKWISE
  | COUNTERCLOCKWISE
deriving DecidableEq, Repr

/-- Source enumeration `InputState::state`. -/
inductive InputState.state where
  | seconds
  | minutes
deriving DecidableEq, Repr

/-- Data members of `struct InputState` (the encoder object is an input). -/
structure InputState where
  defaultState : InputState.state
  lastState : InputState.state
  currentState : InputState.state
deriving DecidableEq, Repr

/-- Initial value of the global `input`: `defaultState` is `seconds` unless
`MINUTES_DEFAULT` is defined, `lastState` is the other unit and `currentState`
is `defaultState`. -/
def InputState.init (minutesDefault : Bool) : InputState :=
  match minutesDefault with
  | false =>
    { defaultState := InputState.state.seconds, lastState := InputState.state.minutes,
      currentState := InputState.state.seconds }
  | true =>
    { defaultState := InputState.state.minutes, lastState := InputState.state.seconds,
      currentState := InputState.state.minutes }

/-- The global objects of `main.cpp` that carry program state. -/
structure Globals where
  input : InputState
  wait : TimerHelper
  ktTimer : KitchenTimer
  alarm : AlarmTone
deriving DecidableEq, Repr

/-- What one iteration of `loop()` reads from outside: the result of
`btn.tick()`, the result of `enc.tick(); enc.getDirection()`, and one clock
reading for every call of `millis()` the iteration can make. -/
structure LoopInput where
  button : ButtonState
  direction : Direction
  tTick : Nat
  tRestart : Nat
  tWait : Nat
  tWaitStart : Nat
  tArm : Nat
  tDelay : Nat
  tDelayStart : Nat
  tTone : Nat
  tToneStart : Nat
deriving DecidableEq, Repr

/-- Function `runTimer(kT)`: the updated timer and the returned state.
`tTick` is the clock reading of `kT(SECOND)`, `tRestart` the one of `kT.start()`. -/
def runTimer (kT : KitchenTimer) (tTick tRestart : Nat) : KitchenTimer × KitchenTimerState :=
  let kT1 := if kT.elapsed tTick SECOND then
      let kT2 := kT.decrement
      match kT2.timeIsUp with
      | false => kT2.start tRestart
      | true => kT2.setState KitchenTimerState.alarm
    else kT
  (kT1, kT1.getState)

/-- Function `askEncoder(enc, kT)`: the updated timer and the returned flag. -/
def askEncoder (dir : Direction) (kT : KitchenTimer) : KitchenTimer × Bool :=
  match dir with
  | Direction.NOROTATION => (kT, false)
  | Direction.CLOCKWISE => (kT.increment, true)
  | Direction.COUNTERCLOCKWISE => (kT.decrement, true)

/-- Function `processInput(kT, iS)`, called with the globals `ktTimer` and
`input`: the updated globals and the returned flag. -/
def processInput (g : Globals) (dir : Direction) : Globals × Bool :=
  if g.input.lastState ≠ g.input.currentState then
    let kT1 := match g.input.currentState with
      | InputState.state.seconds => g.ktTimer.setUnitSeconds
      | InputState.state.minutes => g.ktTimer.setUnitMinutes
    ({ g with ktTimer := kT1, input := { g.input with lastState := g.input.currentState } }, true)
  else
    let r := askEncoder dir g.ktTimer
    if r.2 then
      match r.1.getState with
      | KitchenTimerState.alarm => ({ g with ktTimer := r.1.setState KitchenTimerState.off }, true)
      | _ => ({ g with ktTimer := r.1 }, true)
    else ({ g with ktTimer := r.1 }, false)

/-- Function `setDisplayForInput(kT, iS)`, called with the globals `ktTimer`
and `input`. -/
def setDisplayForInput (g : Globals) : Globals :=
  let last := if g.input.defaultState = InputState.state.seconds then InputState.state.minutes else InputState.state.seconds
  { g with
    ktTimer := g.ktTimer.setState KitchenTimerState.off
    input := { g.input with lastState := last, currentState := g.input.defaultState } }

/-- Function `askRtButton(b, kT, iS)`, called with the globals `btn`, `ktTimer`
and `input`.  `b` is the result of `b.tick()`, `tArm` the clock reading of
`kT.start()`. -/
def askRtButton (g : Globals) (b : ButtonState) (tArm : Nat) : Globals :=
  match b with
  | ButtonState.notPressed => g
  | ButtonState.longPressed =>
    if !g.ktTimer.timeIsUp then
      match g.ktTimer.getState with
      | KitchenTimerState.active => setDisplayForInput g
      | KitchenTimerState.off =>
        { g with ktTimer := ((g.ktTimer.setState KitchenTimerState.active).setUnitSeconds).start tArm }
      | KitchenTimerState.alarm => g
    else g
  | ButtonState.shortPressed =>
    if g.ktTimer.getState = KitchenTimerState.active then g
    else
      match g.input.currentState with
      | InputState.state.seconds => { g with input := { g.input with currentState := InputState.state.minutes } }
      | InputState.state.minutes => { g with input := { g.input with currentState := InputState.state.seconds } }

/-- The `case KitchenTimerState::off` of `loop()`.  `powerDown` and `delay`
change no program state; they only let time pass before `tWaitStart` is read. -/
def loopOff (g : Globals) (inp : LoopInput) : Globals :=
  let r := processInput g inp.direction
  if r.2 then { r.1 with wait := r.1.wait.start inp.tWaitStart }
  else if r.1.wait.elapsed inp.tWait TIMEOUT then { r.1 with wait := r.1.wait.start inp.tWaitStart }
  else r.1

/-- The `case KitchenTimerState::alarm` of `loop()`. -/
def loopAlarm (g : Globals) (inp : LoopInput) : Globals :=
  let g1 := { g with alarm := (g.alarm.playAlarm inp.tDelay inp.tDelayStart inp.tTone inp.tToneStart).1 }
  let g2 := if inp.button ≠ ButtonState.notPressed then setDisplayForInput g1 else g1
  let r := askEncoder inp.direction g2.ktTimer
  let g3 := if r.2 then setDisplayForInput { g2 with ktTimer := r.1.setSeconds 0 } else { g2 with ktTimer := r.1 }
  { g3 with wait := g3.wait.start inp.tWaitStart }

/-- Function `loop()`: one iteration of the main program. -/
def loop (g : Globals) (inp : LoopInput) : Globals :=
  let ktState := g.ktTimer.getState
  let g1 := match ktState with
    | KitchenTimerState.active => { g with ktTimer := (runTimer g.ktTimer inp.tTick inp.tRestart).1 }
    | KitchenTimerState.off => loopOff g inp
    | KitchenTimerState.alarm => loopAlarm g inp
  if ktState ≠ KitchenTimerState.alarm then askRtButton g1 inp.button inp.tArm else g1

/-- The iterations of `loop()` for a list of inputs, in order. -/
def runLoop (g : Globals) (inps : List LoopInput) : Globals :=
  inps.foldl loop g

/-- The globals after static initialisation and `setup()`.  `minutesDefault`
tells whether `MINUTES_DEFAULT` is defined, `pinAlarm` is the value of
`PIN_ALARM` for the board. -/
def initGlobals (minutesDefault : Bool) (pinAlarm : Nat) : Globals :=
  { input := InputState.init minutesDefault
    wait := {}
    ktTimer := KitchenTimer.construct 0 0
    alarm := AlarmTone.construct pinAlarm NOTE_F5 NOTE_A5 }

/-- States of the main program at the start of some iteration of `loop()`. -/
inductive Reachable (minutesDefault : Bool) (pinAlarm : Nat) : Globals → Prop where
  | init : Reachable minutesDefault pinAlarm (initGlobals minutesDefault pinAlarm)
  | step (g : Globals) (inp : LoopInput) :
      Reachable minutesDefault pinAlarm g → Reachable minutesDefault pinAlarm (loop g inp)

/-- Every iteration of the list is a due tick without button input: the button
reports `notPressed` and the test `kT(SECOND)` of `runTimer` succeeds in the
state the iteration starts in. -/
def onlyDueTicks (g : Globals) : List LoopInput → Bool
  | [] => true
  | inp :: rest =>
    decide (inp.button = ButtonState.notPressed) && g.ktTimer.elapsed inp.tTick SECOND
      && onlyDueTicks (loop g inp) rest

/-- What every iteration of `loop()` keeps true of the timer object: the
multiplier belongs to the active unit, the value is at most 3600, a running
countdown counts seconds and is not at zero, and an alarm is at zero with the
unit still seconds. -/
def TimerInv (kT : KitchenTimer) : Prop :=
  ((kT.multiplier = 1 ∧ kT.activeUnit = ActiveUnit.seconds) ∨
      (kT.multiplier = 60 ∧ kT.activeUnit = ActiveUnit.minutes)) ∧
    kT.totalSeconds ≤ 3600 ∧
    (kT.state = KitchenTimerState.active → kT.multiplier = 1 ∧ 1 ≤ kT.totalSeconds) ∧
    (kT.state = KitchenTimerState.alarm → kT.multiplier = 1 ∧ kT.totalSeconds = 0)

/-- The unit applied to the timer object is the unit `currentState` names, with
its multiplier. -/
def UnitAgrees (g : Globals) : Prop :=
  (g.input.currentState = InputState.state.seconds ∧ g.ktTimer.activeUnit = ActiveUnit.seconds ∧
      g.ktTimer.multiplier = TIMEUNIT_SEC) ∨
    (g.input.currentState = InputState.state.minutes ∧ g.ktTimer.activeUnit = ActiveUnit.minutes ∧
      g.ktTimer.multiplier = TIMEUNIT_MIN)

/-- What every iteration of `loop()` keeps true of the edited unit: in state off
with `lastState = currentState` the applied unit agrees with `currentState`. -/
def EditInv (g : Globals) : Prop :=
  g.ktTimer.state = KitchenTimerState.off → g.input.lastState = g.input.currentState →
    UnitAgrees g

/-! ## Observing the alarm sequencer -/

/-- One call on an `AlarmTone` object, with the clock readings it uses. -/
inductive AlarmCall where
  | play (tCheck tStart : Nat)
  | playAlarm (tDelay tDelayStart tTone tToneStart : Nat)
deriving DecidableEq, Repr

/-- Effect of one call: the updated object and the buzzer calls made. -/
def AlarmCall.apply (c : AlarmCall) (a : AlarmTone) : AlarmTone × List BuzzerEvent :=
  match c with
  | AlarmCall.play tCheck tStart => a.play tCheck tStart
  | AlarmCall.playAlarm tDelay tDelayStart tTone tToneStart =>
    a.playAlarm tDelay tDelayStart tTone tToneStart

/-- The call runs `reset()`: it is a `playAlarm()` whose test
`delayTimer(ALARM_DELAY_MS)` succeeds. -/
def AlarmCall.resets (c : AlarmCall) (a : AlarmTone) : Bool :=
  match c with
  | AlarmCall.play _ _ => false
  | AlarmCall.playAlarm tDelay _ _ _ => a.delayTimer.elapsed tDelay ALARM_DELAY_MS

/-- The object after a sequence of calls, in order. -/
def runCalls (a : AlarmTone) (calls : List AlarmCall) : AlarmTone :=
  calls.foldl (fun acc c => (c.apply acc).1) a

/-- The buzzer calls made by a sequence of calls up to, and not including, the
first call that runs `reset()`. -/
def eventsBeforeReset (a : AlarmTone) : List AlarmCall → List BuzzerEvent
  | [] => []
  | c :: rest =>
    if c.resets a then [] else (c.apply a).2 ++ eventsBeforeReset (c.apply a).1 rest

/-- The buzzer call is a `tone(...)`. -/
def BuzzerEvent.isTone : BuzzerEvent → Bool
  | BuzzerEvent.tone _ _ _ => true
  | BuzzerEvent.noTone _ => false

/-- The `tone(...)` call that plays `tones[i]`. -/
def AlarmTone.noteEvent (a : AlarmTone) (i : Nat) : BuzzerEvent :=
  BuzzerEvent.tone a.pin (a.tones.get? i) a.toneDuration

/-- The notes still to be played before the sequence halts, for a note index 0
or 1: none when `alarmFinished`, both notes at index 0, the second at index 1. -/
def AlarmTone.remainingNotes (a : AlarmTone) : List BuzzerEvent :=
  if a.alarmFinished then []
  else if a.tonesIndex = 0 then [a.noteEvent 0, a.noteEvent 1]
  else [a.noteEvent 1]

/-- All buzzer calls made by a sequence of calls, in order. -/
def runEvents (a : AlarmTone) : List AlarmCall → List BuzzerEvent
  | [] => []
  | c :: rest => (c.apply a).2 ++ runEvents (c.apply a).1 rest

/-- The buzzer call did not read outside the array `tones`: it is a `noTone`,
or a `tone` whose frequency was read at an index inside the array. -/
def BuzzerEvent.inBounds : BuzzerEvent → Bool
  | BuzzerEvent.tone _ (some _) _ => true
  | BuzzerEvent.tone _ none _ => false
  | BuzzerEvent.noTone _ => true

/-- What every call keeps true of the note index: it is below `MAX_TONES`, and
the array has `MAX_TONES` entries. -/
def IndexInv (a : AlarmTone) : Prop :=
  a.tonesIndex < MAX_TONES ∧ a.tones.length = MAX_TONES

/-! ## Sample inputs -/

/-- An iteration at clock reading `t` with the given button and encoder results. -/
def inputAt (t : Nat) (b : ButtonState) (d : Direction) : LoopInput :=
  { button := b, direction := d, tTick := t, tRestart := t, tWait := t, tWaitStart := t, tArm := t,
    tDelay := t, tDelayStart := t, tTone := t, tToneStart := t }

/-- Start-up with seconds as default unit, then five clockwise clicks: the
first iteration applies the unit, the next five set the value to 0:05. -/
def setFiveSeconds : List LoopInput :=
  [inputAt 0 ButtonState.notPressed Direction.NOROTATION,
    inputAt 10 ButtonState.notPressed Direction.CLOCKWISE,
    inputAt 20 ButtonState.notPressed Direction.CLOCKWISE,
    inputAt 30 ButtonState.notPressed Direction.CLOCKWISE,
    inputAt 40 ButtonState.notPressed Direction.CLOCKWISE,
    inputAt 50 ButtonState.notPressed Direction.CLOCKWISE]

/-- Five iterations, 997 ms apart, after a countdown armed at clock reading 1000. -/
def fiveTicks : List LoopInput :=
  [inputAt 1997 ButtonState.notPressed Direction.NOROTATION,
    inputAt 2994 ButtonState.notPressed Direction.NOROTATION,
    inputAt 3991 ButtonState.notPressed Direction.NOROTATION,
    inputAt 4988 ButtonState.notPressed Direction.NOROTATION,
    inputAt 5985 ButtonState.notPressed Direction.NOROTATION]

/-- The value 0:05 set after start-up on a board with `PIN_ALARM = 13`. -/
def fiveSecondsSet : Globals :=
  runLoop (initGlobals false 13) setFiveSeconds

/-- The alarm state reached from `fiveSecondsSet` by a long press at clock
reading 1000 and five due ticks. -/
def alarmAfterFive : Globals :=
  runLoop (loop fiveSecondsSet (inputAt 1000 ButtonState.longPressed Direction.NOROTATION)) fiveTicks

/-- A countdown armed at 0:01 after start-up: one clockwise click, then a long
press at clock reading 1000. -/
def oneSecondArmed : Globals :=
  runLoop (initGlobals false 13)
    [inputAt 0 ButtonState.notPressed Direction.NOROTATION,
      inputAt 10 ButtonState.notPressed Direction.CLOCKWISE,
      inputAt 1000 ButtonState.longPressed Direction.NOROTATION]

/-- The countdown armed at 0:05: `fiveSecondsSet` after a long press at clock
reading 1000. -/
def fiveSecondsArmed : Globals :=
  loop fiveSecondsSet (inputAt 1000 ButtonState.longPressed Direction.NOROTATION)

/-- The state after the first iteration of a start-up with minutes as default
unit, in which the unit is applied. -/
def minutesApplied : Globals :=
  loop (initGlobals true 13) (inputAt 0 ButtonState.notPressed Direction.NOROTATION)

/-- The alarm object of a board with `PIN_ALARM = 13`, as constructed. -/
def freshAlarm : AlarmTone :=
  AlarmTone.construct 13 NOTE_F5 NOTE_A5

/-- Calls of `playAlarm()` at the clock readings 100, 250, 260, 410, 420 and
1400, all before the repeat delay of 1500 ms has elapsed. -/
def firstCycleCalls : List AlarmCall :=
  [AlarmCall.playAlarm 100 100 100 100, AlarmCall.playAlarm 250 250 250 250,
    AlarmCall.playAlarm 260 260 260 260, AlarmCall.playAlarm 410 410 410 410,
    AlarmCall.playAlarm 420 420 420 420, AlarmCall.playAlarm 1400 1400 1400 1400]

/-- The alarm object after a single `playAlarm()` at clock reading 100, which
plays the first note. -/
def afterFirstNote : AlarmTone :=
  runCalls freshAlarm [AlarmCall.playAlarm 100 100 100 100]

/-- Calls of `playAlarm()` over several alarm cycles: a first note at 100, a
reset at 1600 before the second note, the rest of the sequence, and a second
cycle after the reset at 3200. -/
def severalCycles : List AlarmCall :=
  [AlarmCall.playAlarm 100 100 100 100, AlarmCall.playAlarm 1600 1600 1600 1600,
    AlarmCall.playAlarm 1800 1800 1800 1800, AlarmCall.playAlarm 3200 3200 3200 3200,
    AlarmCall.playAlarm 3400 3400 3400 3400, AlarmCall.playAlarm 3450 3450 3450 3450,
    AlarmCall.playAlarm 3700 3700 3700 3700]

/-- The value 0:01 set after start-up, in state off with the unit seconds
applied: the first iteration applies the unit, a clockwise click follows. -/
def oneSecondSet : Globals :=
  runLoop (initGlobals false 13)
    [inputAt 0 ButtonState.notPressed Direction.NOROTATION,
      inputAt 10 ButtonState.notPressed Direction.CLOCKWISE]

/-! # Theorems -/

/-! ## Bounds of the countdown value -/

theorem setMinutes_totalSeconds_le (kT : KitchenTimer) (m : Nat) :
    (kT.setMinutes m).totalSeconds ≤ 3600 := by
  simp only [KitchenTimer.setMinutes, MAX_TOTALSECONDS, MAX_MINUTES, TIMEUNIT_MIN]
  split_ifs <;> omega

theorem setSeconds_totalSeconds_le (kT : KitchenTimer) (s : Nat)
    (ht : kT.totalSeconds ≤ 3600) (hs : s ≤ 59) :
    (kT.setSeconds s).totalSeconds ≤ 3600 := by
  simp only [KitchenTimer.setSeconds, add32, UINT32_MOD, MAX_TOTALSECONDS, MAX_MINUTES,
    TIMEUNIT_MIN, MAX_SECONDS]
  split_ifs with h1 h2
  · omega
  · omega
  · have hlt : kT.totalSeconds / 60 * 60 + s < 4294967296 := by omega
    rw [Nat.mod_eq_of_lt hlt]
    omega

theorem increment_totalSeconds_le (kT : KitchenTimer) :
    kT.increment.totalSeconds ≤ 3600 := by
  simp only [KitchenTimer.increment, MAX_TOTALSECONDS, MAX_MINUTES, TIMEUNIT_MIN]
  split <;> omega

theorem decrement_totalSeconds_le (kT : KitchenTimer) :
    kT.decrement.totalSeconds ≤ 3600 := by
  simp only [KitchenTimer.decrement, MAX_TOTALSECONDS, MAX_MINUTES, TIMEUNIT_MIN]
  split
  · split <;> omega
  · omega

theorem apply_totalSeconds_le (op : TimerOp) (kT : KitchenTimer)
    (ht : kT.totalSeconds ≤ 3600) (hop : op.secondsInRange = true) :
    (op.apply kT).totalSeconds ≤ 3600 := by
  cases op with
  | setMinutes m => exact setMinutes_totalSeconds_le kT m
  | setSeconds s =>
    have hs : s ≤ 59 := by simpa [TimerOp.secondsInRange, MAX_SECONDS] using hop
    exact setSeconds_totalSeconds_le kT s ht hs
  | increment => exact increment_totalSeconds_le kT
  | decrement => exact decrement_totalSeconds_le kT
  | setUnitSeconds => simpa [TimerOp.apply, KitchenTimer.setUnitSeconds] using ht
  | setUnitMinutes => simpa [TimerOp.apply, KitchenTimer.setUnitMinutes] using ht

theorem applyOps_totalSeconds_le (ops : List TimerOp) :
    ∀ kT : KitchenTimer, kT.totalSeconds ≤ 3600 →
      (∀ op ∈ ops, op.secondsInRange = true) → (applyOps kT ops).totalSeconds ≤ 3600 := by
  induction ops with
  | nil => intro kT ht _; simpa [applyOps] using ht
  | cons op rest ih =>
    intro kT ht hall
    have hop : op.secondsInRange = true := hall op (List.mem_cons_self op rest)
    have hrest : ∀ o ∈ rest, o.secondsInRange = true :=
      fun o ho => hall o (List.mem_cons_of_mem op ho)
    have h1 := ih (op.apply kT) (apply_totalSeconds_le op kT ht hop) hrest
    simpa [applyOps] using h1

/-! ## Claims about the countdown value -/

/-- C2 as stated fails: the constructor call `KitchenTimer(60, 0)`, followed by
no further operation, has `totalSeconds = 3600`, which is not at most 3599. -/
theorem C2_counterexample :
    (applyOps (KitchenTimer.construct 60 0) []).totalSeconds = 3600 ∧
      ¬ (applyOps (KitchenTimer.construct 60 0) []).totalSeconds ≤ 3599 := by
  decide

/-- C2, amended: in every state reached from the constructor `KitchenTimer(m, s)`
by any sequence of `setMinutes`, `setSeconds`, increment, decrement,
`setUnitSeconds` and `setUnitMinutes`, where `m` and the minutes arguments are
arbitrary and every seconds argument is at most 59, `totalSeconds` is at most
`MAX_TOTALSECONDS`, which is 3600. -/
theorem C2_totalSeconds_le_max (m s : Nat) (ops : List TimerOp)
    (hs : s ≤ MAX_SECONDS) (hops : ∀ op ∈ ops, op.secondsInRange = true) :
    (applyOps (KitchenTimer.construct m s) ops).totalSeconds ≤ MAX_TOTALSECONDS ∧
      MAX_TOTALSECONDS = 3600 := by
  refine ⟨?_, by decide⟩
  have h0 : (KitchenTimer.construct m s).totalSeconds ≤ 3600 :=
    setSeconds_totalSeconds_le _ s (setMinutes_totalSeconds_le _ m) (by simpa [MAX_SECONDS] using hs)
  have h1 := applyOps_totalSeconds_le ops (KitchenTimer.construct m s) h0 hops
  simpa [MAX_TOTALSECONDS, MAX_MINUTES, TIMEUNIT_MIN] using h1

/-- Witness of C2: `KitchenTimer(60, 59)` followed by two increments, a change
to minutes, a decrement and `setSeconds(59)` stays within 3600. -/
theorem C2_totalSeconds_le_max_witness :
    (applyOps (KitchenTimer.construct 60 59)
        [TimerOp.increment, TimerOp.increment, TimerOp.setUnitMinutes, TimerOp.decrement,
          TimerOp.setSeconds 59]).totalSeconds ≤ MAX_TOTALSECONDS ∧ MAX_TOTALSECONDS = 3600 :=
  C2_totalSeconds_le_max 60 59
    [TimerOp.increment, TimerOp.increment, TimerOp.setUnitMinutes, TimerOp.decrement,
      TimerOp.setSeconds 59] (by decide) (by decide)

/-- C3 as stated fails: with the unit set to seconds, increment applied to
`totalSeconds = 3599` yields 3600, not `min (3599 + 1) 3599 = 3599`. -/
theorem C3_counterexample :
    (({ totalSeconds := 3599 } : KitchenTimer).setUnitSeconds.increment).totalSeconds = 3600 ∧
      (({ totalSeconds := 3599 } : KitchenTimer).setUnitSeconds.increment).totalSeconds
        ≠ min (3599 + 1) 3599 := by
  decide

/-- C3, amended: for every `totalSeconds` `t` in `[0, 3600]`, increment yields
`min (t + 1) 3600` when the unit is seconds and `min (t + 60) 3600` when the
unit is minutes, and changes no other member; the clamp is at
`MAX_TOTALSECONDS = 3600`, so increment applied to 3600 leaves 3600. -/
theorem C3_increment_clamps_at_max (kT : KitchenTimer) (ht : kT.totalSeconds ≤ MAX_TOTALSECONDS) :
    kT.setUnitSeconds.increment
        = { kT.setUnitSeconds with totalSeconds := min (kT.totalSeconds + 1) 3600 } ∧
      kT.setUnitMinutes.increment
        = { kT.setUnitMinutes with totalSeconds := min (kT.totalSeconds + 60) 3600 } ∧
      (kT.totalSeconds = 3600 →
        kT.setUnitSeconds.increment.totalSeconds = 3600 ∧
          kT.setUnitMinutes.increment.totalSeconds = 3600) := by
  have ht3 : kT.totalSeconds ≤ 3600 := by
    simpa [MAX_TOTALSECONDS, MAX_MINUTES, TIMEUNIT_MIN] using ht
  have e1 : kT.setUnitSeconds.increment
        = { kT.setUnitSeconds with totalSeconds := min (kT.totalSeconds + 1) 3600 } := by
    simp only [KitchenTimer.increment, KitchenTimer.setUnitSeconds, add32, UINT32_MOD,
      MAX_TOTALSECONDS, MAX_MINUTES, TIMEUNIT_MIN, TIMEUNIT_SEC, KitchenTimer.mk.injEq, and_true,
      true_and]
    split <;> omega
  have e2 : kT.setUnitMinutes.increment
        = { kT.setUnitMinutes with totalSeconds := min (kT.totalSeconds + 60) 3600 } := by
    simp only [KitchenTimer.increment, KitchenTimer.setUnitMinutes, add32, UINT32_MOD,
      MAX_TOTALSECONDS, MAX_MINUTES, TIMEUNIT_MIN, KitchenTimer.mk.injEq, and_true,
      true_and]
    split <;> omega
  refine ⟨e1, e2, ?_⟩
  intro h
  rw [e1, e2]
  simp [h]

/-- Witness of C3: at `totalSeconds = 3600` both increments leave 3600. -/
theorem C3_increment_clamps_at_max_witness :
    ({ totalSeconds := 3600 } : KitchenTimer).totalSeconds ≤ MAX_TOTALSECONDS ∧
      ({ totalSeconds := 3600 } : KitchenTimer).setUnitSeconds.increment.totalSeconds = 3600 ∧
      ({ totalSeconds := 3600 } : KitchenTimer).setUnitMinutes.increment.totalSeconds = 3600 :=
  ⟨by decide,
    (C3_increment_clamps_at_max { totalSeconds := 3600 } (by decide)).2.2 rfl⟩

/-- C4: with the unit set to seconds and `totalSeconds = t` in `[0, 3599]`,
decrement yields `t - 1` when `t > 0` and 0 when `t = 0`, and changes no other
member.  At `t = 0` the 32 bit subtraction wraps to `2^32 - 1`, which is
greater than `MAX_TOTALSECONDS`, and this test selects the clamp to 0. -/
theorem C4_seconds_decrement_no_underflow (kT : KitchenTimer) (ht : kT.totalSeconds ≤ 3599) :
    (0 < kT.totalSeconds →
        kT.setUnitSeconds.decrement = { kT.setUnitSeconds with totalSeconds := kT.totalSeconds - 1 }) ∧
      (kT.totalSeconds = 0 →
        kT.setUnitSeconds.decrement = { kT.setUnitSeconds with totalSeconds := 0 } ∧
          sub32 kT.totalSeconds (1 * kT.setUnitSeconds.multiplier) = 4294967295 ∧
          sub32 kT.totalSeconds (1 * kT.setUnitSeconds.multiplier) > MAX_TOTALSECONDS) := by
  constructor
  · intro hpos
    have hsub : sub32 kT.totalSeconds 1 = kT.totalSeconds - 1 := by
      simp only [sub32, UINT32_MOD]
      omega
    simp only [KitchenTimer.decrement, KitchenTimer.setUnitSeconds, TIMEUNIT_SEC, Nat.mul_one,
      hsub, MAX_TOTALSECONDS, MAX_MINUTES, TIMEUNIT_MIN]
    have hle : ¬ kT.totalSeconds - 1 > 60 * 60 := by omega
    simp [hle]
  · intro h0
    simp only [h0, KitchenTimer.decrement, KitchenTimer.setUnitSeconds, TIMEUNIT_SEC, Nat.mul_one,
      MAX_TOTALSECONDS, MAX_MINUTES, TIMEUNIT_MIN]
    refine ⟨?_, by decide, by decide⟩
    have hw : sub32 0 1 > 60 * 60 := by decide
    simp [hw]

/-- Witness of C4 at `totalSeconds = 0`: the value stays 0. -/
theorem C4_seconds_decrement_no_underflow_witness :
    ({ totalSeconds := 0 } : KitchenTimer).totalSeconds ≤ 3599 ∧
      ({ totalSeconds := 0 } : KitchenTimer).setUnitSeconds.decrement
        = { ({ totalSeconds := 0 } : KitchenTimer).setUnitSeconds with totalSeconds := 0 } :=
  ⟨by decide, ((C4_seconds_decrement_no_underflow { totalSeconds := 0 } (by decide)).2 rfl).1⟩

/-- C5: with the unit set to minutes and `totalSeconds = t` in `[0, 3599]`,
decrement yields `t - 60` when `t ≥ 60` and `t`, which then equals `t % 60`,
when `t < 60`; no other member changes, and `getSeconds()` is the same before
and after. -/
theorem C5_minutes_decrement_keeps_seconds (kT : KitchenTimer) (ht : kT.totalSeconds ≤ 3599) :
    (60 ≤ kT.totalSeconds →
        kT.setUnitMinutes.decrement = { kT.setUnitMinutes with totalSeconds := kT.totalSeconds - 60 }) ∧
      (kT.totalSeconds < 60 →
        kT.setUnitMinutes.decrement = { kT.setUnitMinutes with totalSeconds := kT.totalSeconds } ∧
          kT.totalSeconds = kT.totalSeconds % 60) ∧
      kT.setUnitMinutes.decrement.getSeconds = kT.getSeconds := by
  have hge : 60 ≤ kT.totalSeconds →
      kT.setUnitMinutes.decrement = { kT.setUnitMinutes with totalSeconds := kT.totalSeconds - 60 } := by
    intro h60
    have hsub : sub32 kT.totalSeconds 60 = kT.totalSeconds - 60 := by
      simp only [sub32, UINT32_MOD]
      omega
    simp only [KitchenTimer.decrement, KitchenTimer.setUnitMinutes, TIMEUNIT_MIN, Nat.one_mul,
      hsub, MAX_TOTALSECONDS, MAX_MINUTES]
    have hle : ¬ kT.totalSeconds - 60 > 60 * 60 := by omega
    simp [hle]
  have hlt : kT.totalSeconds < 60 →
      kT.setUnitMinutes.decrement = { kT.setUnitMinutes with totalSeconds := kT.totalSeconds } := by
    intro h60
    have hsub : sub32 kT.totalSeconds 60 = kT.totalSeconds + 4294967236 := by
      simp only [sub32, UINT32_MOD]
      omega
    simp only [KitchenTimer.decrement, KitchenTimer.setUnitMinutes, TIMEUNIT_MIN, Nat.one_mul,
      hsub, MAX_TOTALSECONDS, MAX_MINUTES, TIMEUNIT_SEC]
    have hgt : kT.totalSeconds + 4294967236 > 60 * 60 := by omega
    have hmod : kT.totalSeconds % 60 = kT.totalSeconds := Nat.mod_eq_of_lt h60
    simp [hgt, hmod]
  refine ⟨hge, fun h => ⟨hlt h, (Nat.mod_eq_of_lt h).symm⟩, ?_⟩
  rcases Nat.lt_or_ge kT.totalSeconds 60 with h | h
  · rw [hlt h]
    simp [KitchenTimer.getSeconds]
  · rw [hge h]
    simp only [KitchenTimer.getSeconds, TIMEUNIT_MIN]
    omega

/-- Witness of C5: 65 seconds (1:05) becomes 5 seconds (0:05). -/
theorem C5_minutes_decrement_keeps_seconds_witness :
    ({ totalSeconds := 65 } : KitchenTimer).totalSeconds ≤ 3599 ∧
      ({ totalSeconds := 65 } : KitchenTimer).setUnitMinutes.decrement
        = { ({ totalSeconds := 65 } : KitchenTimer).setUnitMinutes with totalSeconds := 65 - 60 } :=
  ⟨by decide, (C5_minutes_decrement_keeps_seconds { totalSeconds := 65 } (by decide)).1 (by decide)⟩

/-- C10: for `m` and `s` in `[0, 59]` and every starting value (those with
`totalSeconds ≤ 3600` included), after `setMinutes(m); setSeconds(s); setMinutes(m)`
the timer has `getMinutes() = m` and `getSeconds() = s`, and the second
`setMinutes(m)` changes nothing at all. -/
theorem C10_setMinutes_setSeconds_round_trip (kT : KitchenTimer) (m s : Nat)
    (hm : m ≤ 59) (hs : s ≤ 59) :
    (((kT.setMinutes m).setSeconds s).setMinutes m).getMinutes = m ∧
      (((kT.setMinutes m).setSeconds s).setMinutes m).getSeconds = s ∧
      ((kT.setMinutes m).setSeconds s).getSeconds = s ∧
      ((kT.setMinutes m).setSeconds s).setMinutes m = (kT.setMinutes m).setSeconds s := by
  have hm60 : ¬ m > 60 := by omega
  have hs59 : ¬ s > 59 := by omega
  have e1 : (kT.setMinutes m).totalSeconds = kT.totalSeconds % 60 + 60 * m := by
    simp only [KitchenTimer.setMinutes, add32, UINT32_MOD, UINT16_MOD, MAX_TOTALSECONDS,
      MAX_MINUTES, TIMEUNIT_MIN, hm60, if_false]
    have h1 : 60 * m % 65536 = 60 * m := Nat.mod_eq_of_lt (by omega)
    have h2 : (kT.totalSeconds % 60 + 60 * m) % 4294967296 = kT.totalSeconds % 60 + 60 * m :=
      Nat.mod_eq_of_lt (by omega)
    rw [h1, h2]
    have h3 : ¬ kT.totalSeconds % 60 + 60 * m > 60 * 60 := by omega
    simp [h3]
  have e2 : ((kT.setMinutes m).setSeconds s).totalSeconds = 60 * m + s := by
    simp only [KitchenTimer.setSeconds, e1, add32, UINT32_MOD, MAX_TOTALSECONDS, MAX_MINUTES,
      TIMEUNIT_MIN, MAX_SECONDS, hs59, if_false]
    have h1 : (kT.totalSeconds % 60 + 60 * m) / 60 * 60 = 60 * m := by omega
    rw [h1]
    have h2 : ¬ 60 * m = 60 * 60 := by omega
    simp only [h2, if_false]
    exact Nat.mod_eq_of_lt (by omega)
  have e3 : ((kT.setMinutes m).setSeconds s).setMinutes m = (kT.setMinutes m).setSeconds s := by
    have h0 : (((kT.setMinutes m).setSeconds s).setMinutes m).totalSeconds = 60 * m + s := by
      simp only [KitchenTimer.setMinutes, add32, UINT32_MOD, UINT16_MOD, MAX_TOTALSECONDS,
        MAX_MINUTES, TIMEUNIT_MIN, hm60, if_false] at e2 ⊢
      rw [e2]
      have h1 : 60 * m % 65536 = 60 * m := Nat.mod_eq_of_lt (by omega)
      have h2 : ((60 * m + s) % 60 + 60 * m) % 4294967296 = 60 * m + s := by omega
      rw [h1, h2]
      have h3 : ¬ 60 * m + s > 60 * 60 := by omega
      simp [h3]
    have h4 : ((kT.setMinutes m).setSeconds s).setMinutes m
        = { (kT.setMinutes m).setSeconds s with
            totalSeconds := (((kT.setMinutes m).setSeconds s).setMinutes m).totalSeconds } := rfl
    rw [h4, h0, ← e2]
  refine ⟨?_, ?_, ?_, e3⟩
  · rw [e3]
    simp only [KitchenTimer.getMinutes, e2, TIMEUNIT_MIN]
    omega
  · rw [e3]
    simp only [KitchenTimer.getSeconds, e2, TIMEUNIT_MIN]
    omega
  · simp only [KitchenTimer.getSeconds, e2, TIMEUNIT_MIN]
    omega

/-- Witness of C10: from 59:59, `setMinutes(12); setSeconds(34); setMinutes(12)`
shows 12:34. -/
theorem C10_setMinutes_setSeconds_round_trip_witness :
    (((({ totalSeconds := 3599 } : KitchenTimer).setMinutes 12).setSeconds 34).setMinutes 12).getMinutes = 12 ∧
      (((({ totalSeconds := 3599 } : KitchenTimer).setMinutes 12).setSeconds 34).setMinutes 12).getSeconds = 34 :=
  ⟨(C10_setMinutes_setSeconds_round_trip { totalSeconds := 3599 } 12 34 (by decide) (by decide)).1,
    (C10_setMinutes_setSeconds_round_trip { totalSeconds := 3599 } 12 34 (by decide) (by decide)).2.1⟩

/-! ## Invariant of the main loop -/

theorem sub32_one_of_pos (t : Nat) (h1 : 1 ≤ t) (h2 : t ≤ 3600) : sub32 t 1 = t - 1 := by
  simp only [sub32, UINT32_MOD]
  omega

theorem decrement_seconds_of_pos (kT : KitchenTimer) (hm : kT.multiplier = 1)
    (h1 : 1 ≤ kT.totalSeconds) (h2 : kT.totalSeconds ≤ 3600) :
    kT.decrement = { kT with totalSeconds := kT.totalSeconds - 1 } := by
  have hle : ¬ kT.totalSeconds - 1 > 60 * 60 := by omega
  simp [KitchenTimer.decrement, hm, sub32_one_of_pos _ h1 h2, MAX_TOTALSECONDS, MAX_MINUTES,
    TIMEUNIT_MIN, hle]

theorem runTimer_not_due (kT : KitchenTimer) (tTick tRestart : Nat)
    (he : kT.elapsed tTick SECOND = false) : (runTimer kT tTick tRestart).1 = kT := by
  simp [runTimer, he]

theorem runTimer_due_last (kT : KitchenTimer) (tTick tRestart : Nat)
    (he : kT.elapsed tTick SECOND = true) (hm : kT.multiplier = 1) (h1 : kT.totalSeconds = 1) :
    (runTimer kT tTick tRestart).1
      = { kT with totalSeconds := 0, state := KitchenTimerState.alarm } := by
  have hd := decrement_seconds_of_pos kT hm (by omega) (by omega)
  simp [runTimer, he, hd, h1, KitchenTimer.timeIsUp, KitchenTimer.setState]

theorem runTimer_due_more (kT : KitchenTimer) (tTick tRestart : Nat)
    (he : kT.elapsed tTick SECOND = true) (hm : kT.multiplier = 1) (h1 : 2 ≤ kT.totalSeconds)
    (h2 : kT.totalSeconds ≤ 3600) :
    (runTimer kT tTick tRestart).1
      = { kT with totalSeconds := kT.totalSeconds - 1, timeStamp := tRestart % UINT32_MOD } := by
  have hd := decrement_seconds_of_pos kT hm (by omega) h2
  have hne : kT.totalSeconds - 1 ≠ 0 := by omega
  simp [runTimer, he, hd, KitchenTimer.timeIsUp, KitchenTimer.start, hne]

theorem runTimer_inv (kT : KitchenTimer) (tTick tRestart : Nat) (h : TimerInv kT)
    (ha : kT.state = KitchenTimerState.active) : TimerInv (runTimer kT tTick tRestart).1 := by
  obtain ⟨hu, hle, hact, hal⟩ := h
  obtain ⟨hm, hpos⟩ := hact ha
  have hsec : kT.activeUnit = ActiveUnit.seconds := by
    rcases hu with h | h
    · exact h.2
    · omega
  cases he : kT.elapsed tTick SECOND with
  | false =>
    rw [runTimer_not_due kT tTick tRestart he]
    exact ⟨hu, hle, hact, hal⟩
  | true =>
    rcases Nat.lt_or_ge kT.totalSeconds 2 with h2 | h2
    · rw [runTimer_due_last kT tTick tRestart he hm (by omega)]
      simp [TimerInv, hm, hsec]
    · rw [runTimer_due_more kT tTick tRestart he hm h2 hle]
      simp only [TimerInv, ha, hm, true_and, forall_const]
      refine ⟨Or.inl hsec, by omega, by omega, ?_⟩
      intro hc
      cases hc

theorem timerInv_setState_off (kT : KitchenTimer) (h : TimerInv kT) :
    TimerInv (kT.setState KitchenTimerState.off) := by
  obtain ⟨hu, hle, _, _⟩ := h
  refine ⟨hu, hle, ?_, ?_⟩ <;> intro hc <;> cases hc

theorem askRtButton_short_ktTimer (g : Globals) (tArm : Nat) :
    (askRtButton g ButtonState.shortPressed tArm).ktTimer = g.ktTimer := by
  unfold askRtButton
  simp only
  split_ifs
  · rfl
  · split <;> rfl

theorem askRtButton_long_zero (g : Globals) (tArm : Nat) (h0 : g.ktTimer.totalSeconds = 0) :
    askRtButton g ButtonState.longPressed tArm = g := by
  simp [askRtButton, KitchenTimer.timeIsUp, h0]

theorem askRtButton_long_off (g : Globals) (tArm : Nat) (h0 : g.ktTimer.totalSeconds ≠ 0)
    (hs : g.ktTimer.state = KitchenTimerState.off) :
    askRtButton g ButtonState.longPressed tArm
      = { g with ktTimer :=
            { g.ktTimer with
              state := KitchenTimerState.active, multiplier := 1,
              activeUnit := ActiveUnit.seconds, timeStamp := tArm % UINT32_MOD } } := by
  simp [askRtButton, KitchenTimer.timeIsUp, h0, KitchenTimer.getState, hs, KitchenTimer.setState,
    KitchenTimer.setUnitSeconds, KitchenTimer.start, TIMEUNIT_SEC]

theorem askRtButton_long_active (g : Globals) (tArm : Nat) (h0 : g.ktTimer.totalSeconds ≠ 0)
    (hs : g.ktTimer.state = KitchenTimerState.active) :
    askRtButton g ButtonState.longPressed tArm = setDisplayForInput g := by
  simp [askRtButton, KitchenTimer.timeIsUp, h0, KitchenTimer.getState, hs]

theorem askRtButton_long_alarm (g : Globals) (tArm : Nat)
    (hs : g.ktTimer.state = KitchenTimerState.alarm) :
    askRtButton g ButtonState.longPressed tArm = g := by
  simp [askRtButton, KitchenTimer.getState, hs]

theorem askRtButton_inv (g : Globals) (b : ButtonState) (tArm : Nat) (h : TimerInv g.ktTimer) :
    TimerInv (askRtButton g b tArm).ktTimer := by
  cases b with
  | notPressed => exact h
  | shortPressed => rw [askRtButton_short_ktTimer]; exact h
  | longPressed =>
    by_cases h0 : g.ktTimer.totalSeconds = 0
    · rw [askRtButton_long_zero g tArm h0]; exact h
    · cases hs : g.ktTimer.state with
      | off =>
        rw [askRtButton_long_off g tArm h0 hs]
        obtain ⟨_, hle, _, _⟩ := h
        refine ⟨Or.inl ⟨rfl, rfl⟩, hle, fun _ => ⟨rfl, Nat.pos_of_ne_zero h0⟩, ?_⟩
        intro hc
        cases hc
      | active =>
        rw [askRtButton_long_active g tArm h0 hs]
        exact timerInv_setState_off _ h
      | alarm => rw [askRtButton_long_alarm g tArm hs]; exact h

theorem askRtButton_defaultState (g : Globals) (b : ButtonState) (tArm : Nat) :
    (askRtButton g b tArm).input.defaultState = g.input.defaultState := by
  cases b with
  | notPressed => rfl
  | shortPressed =>
    unfold askRtButton
    simp only
    split_ifs
    · rfl
    · split <;> rfl
  | longPressed =>
    unfold askRtButton
    simp only
    split_ifs
    · split <;> rfl
    · rfl

theorem timerInv_of_off (kT : KitchenTimer)
    (hu : (kT.multiplier = 1 ∧ kT.activeUnit = ActiveUnit.seconds) ∨
      (kT.multiplier = 60 ∧ kT.activeUnit = ActiveUnit.minutes))
    (hle : kT.totalSeconds ≤ 3600) (hs : kT.state = KitchenTimerState.off) : TimerInv kT := by
  refine ⟨hu, hle, ?_, ?_⟩ <;> intro hc <;> rw [hs] at hc <;> cases hc

theorem askEncoder_inv (dir : Direction) (kT : KitchenTimer) (h : TimerInv kT)
    (hs : kT.state = KitchenTimerState.off) :
    TimerInv (askEncoder dir kT).1 ∧ (askEncoder dir kT).1.state = KitchenTimerState.off := by
  obtain ⟨hu, hle, _, _⟩ := h
  cases dir with
  | NOROTATION => exact ⟨timerInv_of_off kT hu hle hs, hs⟩
  | CLOCKWISE =>
    exact ⟨timerInv_of_off kT.increment hu (increment_totalSeconds_le kT) hs, hs⟩
  | COUNTERCLOCKWISE =>
    exact ⟨timerInv_of_off kT.decrement hu (decrement_totalSeconds_le kT) hs, hs⟩

theorem processInput_unit_changed (g : Globals) (dir : Direction)
    (hne : g.input.lastState ≠ g.input.currentState) :
    processInput g dir
      = ({ g with
            ktTimer := (match g.input.currentState with
              | InputState.state.seconds => g.ktTimer.setUnitSeconds
              | InputState.state.minutes => g.ktTimer.setUnitMinutes)
            input := { g.input with lastState := g.input.currentState } }, true) := by
  rw [processInput, if_pos hne]

theorem processInput_unit_same (g : Globals) (dir : Direction)
    (heq : g.input.lastState = g.input.currentState) (hs : g.ktTimer.state = KitchenTimerState.off) :
    processInput g dir
      = ({ g with ktTimer := (askEncoder dir g.ktTimer).1 }, (askEncoder dir g.ktTimer).2) := by
  have hst : (askEncoder dir g.ktTimer).1.state = KitchenTimerState.off := by
    cases dir <;> exact hs
  rw [processInput, if_neg (by simpa using heq)]
  simp only [KitchenTimer.getState, hst]
  split_ifs with h
  · rw [h]
  · simp only [Bool.not_eq_true] at h
    rw [h]

theorem processInput_inv (g : Globals) (dir : Direction) (h : TimerInv g.ktTimer)
    (hs : g.ktTimer.state = KitchenTimerState.off) :
    TimerInv (processInput g dir).1.ktTimer ∧
      (processInput g dir).1.ktTimer.state = KitchenTimerState.off ∧
      (processInput g dir).1.input.defaultState = g.input.defaultState := by
  by_cases hne : g.input.lastState ≠ g.input.currentState
  · rw [processInput_unit_changed g dir hne]
    obtain ⟨hu, hle, _, _⟩ := h
    cases g.input.currentState with
    | seconds =>
      exact ⟨timerInv_of_off g.ktTimer.setUnitSeconds (Or.inl ⟨rfl, rfl⟩) hle hs, hs, rfl⟩
    | minutes =>
      exact ⟨timerInv_of_off g.ktTimer.setUnitMinutes (Or.inr ⟨rfl, rfl⟩) hle hs, hs, rfl⟩
  · have henc := askEncoder_inv dir g.ktTimer h hs
    rw [processInput_unit_same g dir (by simpa using hne) hs]
    exact ⟨henc.1, henc.2, rfl⟩

theorem loopOff_inv (g : Globals) (inp : LoopInput) (h : TimerInv g.ktTimer)
    (hs : g.ktTimer.state = KitchenTimerState.off) :
    TimerInv (loopOff g inp).ktTimer ∧
      (loopOff g inp).input.defaultState = g.input.defaultState := by
  have hp := processInput_inv g inp.direction h hs
  unfold loopOff
  simp only
  split_ifs
  · exact ⟨hp.1, hp.2.2⟩
  · exact ⟨hp.1, hp.2.2⟩
  · exact ⟨hp.1, hp.2.2⟩

theorem setDisplayForInput_ktTimer (g : Globals) :
    (setDisplayForInput g).ktTimer = g.ktTimer.setState KitchenTimerState.off := rfl

theorem setDisplayForInput_defaultState (g : Globals) :
    (setDisplayForInput g).input.defaultState = g.input.defaultState := rfl

theorem setDisplayForInput_currentState (g : Globals) :
    (setDisplayForInput g).input.currentState = g.input.defaultState := rfl

theorem setDisplayForInput_lastState (g : Globals) :
    (setDisplayForInput g).input.lastState
      = (if g.input.defaultState = InputState.state.seconds then InputState.state.minutes
          else InputState.state.seconds) := rfl

theorem loopAlarm_no_input (g : Globals) (inp : LoopInput)
    (hb : inp.button = ButtonState.notPressed) (hd : inp.direction = Direction.NOROTATION) :
    (loopAlarm g inp).ktTimer = g.ktTimer ∧ (loopAlarm g inp).input = g.input := by
  simp [loopAlarm, hb, hd, askEncoder]

theorem loopAlarm_button_only (g : Globals) (inp : LoopInput)
    (hb : inp.button ≠ ButtonState.notPressed) (hd : inp.direction = Direction.NOROTATION) :
    (loopAlarm g inp).ktTimer = g.ktTimer.setState KitchenTimerState.off ∧
      (loopAlarm g inp).input = (setDisplayForInput g).input := by
  simp [loopAlarm, hb, hd, askEncoder, setDisplayForInput]

theorem loopAlarm_clockwise (g : Globals) (inp : LoopInput)
    (hd : inp.direction = Direction.CLOCKWISE) :
    (loopAlarm g inp).ktTimer
        = { (g.ktTimer.increment.setSeconds 0) with state := KitchenTimerState.off } ∧
      (loopAlarm g inp).input = (setDisplayForInput g).input := by
  by_cases hb : inp.button = ButtonState.notPressed
  · simp [loopAlarm, hb, hd, askEncoder, setDisplayForInput, KitchenTimer.setState]
  · simp [loopAlarm, hb, hd, askEncoder, setDisplayForInput, KitchenTimer.setState]
    exact ⟨rfl, rfl, rfl, rfl⟩

theorem loopAlarm_counterclockwise (g : Globals) (inp : LoopInput)
    (hd : inp.direction = Direction.COUNTERCLOCKWISE) :
    (loopAlarm g inp).ktTimer
        = { (g.ktTimer.decrement.setSeconds 0) with state := KitchenTimerState.off } ∧
      (loopAlarm g inp).input = (setDisplayForInput g).input := by
  by_cases hb : inp.button = ButtonState.notPressed
  · simp [loopAlarm, hb, hd, askEncoder, setDisplayForInput, KitchenTimer.setState]
  · simp [loopAlarm, hb, hd, askEncoder, setDisplayForInput, KitchenTimer.setState]
    exact ⟨rfl, rfl, rfl, rfl⟩

theorem loopAlarm_inv (g : Globals) (inp : LoopInput) (h : TimerInv g.ktTimer) :
    TimerInv (loopAlarm g inp).ktTimer ∧
      (loopAlarm g inp).input.defaultState = g.input.defaultState := by
  have hu := h.1
  cases hd : inp.direction with
  | NOROTATION =>
    by_cases hb : inp.button = ButtonState.notPressed
    · obtain ⟨e1, e2⟩ := loopAlarm_no_input g inp hb hd
      rw [e1, e2]
      exact ⟨h, rfl⟩
    · obtain ⟨e1, e2⟩ := loopAlarm_button_only g inp hb hd
      rw [e1, e2]
      exact ⟨timerInv_setState_off _ h, rfl⟩
  | CLOCKWISE =>
    obtain ⟨e1, e2⟩ := loopAlarm_clockwise g inp hd
    rw [e1, e2]
    refine ⟨timerInv_of_off _ hu ?_ rfl, rfl⟩
    exact setSeconds_totalSeconds_le _ 0 (increment_totalSeconds_le _) (by omega)
  | COUNTERCLOCKWISE =>
    obtain ⟨e1, e2⟩ := loopAlarm_counterclockwise g inp hd
    rw [e1, e2]
    refine ⟨timerInv_of_off _ hu ?_ rfl, rfl⟩
    exact setSeconds_totalSeconds_le _ 0 (decrement_totalSeconds_le _) (by omega)

theorem loop_of_alarm (g : Globals) (inp : LoopInput)
    (hs : g.ktTimer.state = KitchenTimerState.alarm) : loop g inp = loopAlarm g inp := by
  simp [loop, KitchenTimer.getState, hs]

theorem loop_of_off (g : Globals) (inp : LoopInput)
    (hs : g.ktTimer.state = KitchenTimerState.off) :
    loop g inp = askRtButton (loopOff g inp) inp.button inp.tArm := by
  simp [loop, KitchenTimer.getState, hs]

theorem loop_of_active (g : Globals) (inp : LoopInput)
    (hs : g.ktTimer.state = KitchenTimerState.active) :
    loop g inp
      = askRtButton { g with ktTimer := (runTimer g.ktTimer inp.tTick inp.tRestart).1 }
          inp.button inp.tArm := by
  simp [loop, KitchenTimer.getState, hs]

theorem loop_inv (g : Globals) (inp : LoopInput) (h : TimerInv g.ktTimer) :
    TimerInv (loop g inp).ktTimer ∧ (loop g inp).input.defaultState = g.input.defaultState := by
  cases hs : g.ktTimer.state with
  | off =>
    rw [loop_of_off g inp hs]
    have h1 := loopOff_inv g inp h hs
    exact ⟨askRtButton_inv _ _ _ h1.1, by rw [askRtButton_defaultState, h1.2]⟩
  | active =>
    rw [loop_of_active g inp hs]
    have h1 := runTimer_inv g.ktTimer inp.tTick inp.tRestart h hs
    exact ⟨askRtButton_inv _ _ _ h1, by rw [askRtButton_defaultState]⟩
  | alarm =>
    rw [loop_of_alarm g inp hs]
    exact loopAlarm_inv g inp h

theorem initGlobals_inv (minutesDefault : Bool) (pinAlarm : Nat) :
    TimerInv (initGlobals minutesDefault pinAlarm).ktTimer ∧
      (initGlobals minutesDefault pinAlarm).input.defaultState
        = (InputState.init minutesDefault).defaultState := by
  refine ⟨?_, rfl⟩
  have e0 : KitchenTimer.construct 0 0 = { } := by decide
  have e : (initGlobals minutesDefault pinAlarm).ktTimer = { } := e0
  rw [e]
  exact timerInv_of_off _ (Or.inl ⟨rfl, rfl⟩) (by decide) rfl

theorem reachable_inv (minutesDefault : Bool) (pinAlarm : Nat) (g : Globals)
    (hr : Reachable minutesDefault pinAlarm g) :
    TimerInv g.ktTimer ∧ g.input.defaultState = (InputState.init minutesDefault).defaultState := by
  induction hr with
  | init => exact initGlobals_inv minutesDefault pinAlarm
  | step g inp _ ih =>
    have h1 := loop_inv g inp ih.1
    exact ⟨h1.1, by rw [h1.2, ih.2]⟩

theorem runLoop_cons (g : Globals) (inp : LoopInput) (rest : List LoopInput) :
    runLoop g (inp :: rest) = runLoop (loop g inp) rest := rfl

theorem reachable_runLoop (minutesDefault : Bool) (pinAlarm : Nat) (inps : List LoopInput) :
    ∀ g : Globals, Reachable minutesDefault pinAlarm g →
      Reachable minutesDefault pinAlarm (runLoop g inps) := by
  induction inps with
  | nil => intro g hr; exact hr
  | cons inp rest ih =>
    intro g hr
    rw [runLoop_cons]
    exact ih (loop g inp) (Reachable.step g inp hr)

theorem loopOff_without_rotation (g : Globals) (inp : LoopInput)
    (hs : g.ktTimer.state = KitchenTimerState.off)
    (hd : inp.direction = Direction.NOROTATION ∨ g.input.lastState ≠ g.input.currentState) :
    (loopOff g inp).ktTimer.totalSeconds = g.ktTimer.totalSeconds ∧
      (loopOff g inp).ktTimer.state = KitchenTimerState.off := by
  have hk : (processInput g inp.direction).1.ktTimer.totalSeconds = g.ktTimer.totalSeconds ∧
      (processInput g inp.direction).1.ktTimer.state = KitchenTimerState.off := by
    by_cases hne : g.input.lastState ≠ g.input.currentState
    · rw [processInput_unit_changed g inp.direction hne]
      cases g.input.currentState <;> exact ⟨rfl, hs⟩
    · have hrot : inp.direction = Direction.NOROTATION := by
        rcases hd with h | h
        · exact h
        · exact absurd h hne
      rw [processInput_unit_same g inp.direction (by simpa using hne) hs, hrot]
      exact ⟨rfl, hs⟩
  unfold loopOff
  simp only
  split_ifs <;> exact hk

theorem countdown_ticks (ticks : List LoopInput) :
    ∀ (g : Globals) (n : Nat), g.ktTimer.state = KitchenTimerState.active →
      g.ktTimer.multiplier = 1 → g.ktTimer.totalSeconds = n → 1 ≤ n → n ≤ 3600 →
      onlyDueTicks g ticks = true →
      (ticks.length < n →
        (runLoop g ticks).ktTimer.state = KitchenTimerState.active ∧
          (runLoop g ticks).ktTimer.totalSeconds = n - ticks.length) ∧
      (ticks.length = n →
        (runLoop g ticks).ktTimer.state = KitchenTimerState.alarm ∧
          (runLoop g ticks).ktTimer.totalSeconds = 0) := by
  induction ticks with
  | nil =>
    intro g n hs _ hv h1 _ _
    refine ⟨fun _ => ⟨hs, by simpa [runLoop] using hv⟩, fun h => ?_⟩
    simp at h
    omega
  | cons inp rest ih =>
    intro g n hs hm hv h1 h2 hdue
    simp only [onlyDueTicks, Bool.and_eq_true, decide_eq_true_eq] at hdue
    obtain ⟨⟨hb, he⟩, hrest⟩ := hdue
    have hloop : loop g inp = { g with ktTimer := (runTimer g.ktTimer inp.tTick inp.tRestart).1 } := by
      rw [loop_of_active g inp hs, hb]
      rfl
    rw [runLoop_cons]
    rcases Nat.lt_or_ge n 2 with hn | hn
    · have hk := runTimer_due_last g.ktTimer inp.tTick inp.tRestart he hm (by omega)
      have hst : (loop g inp).ktTimer.state = KitchenTimerState.alarm := by rw [hloop, hk]
      have hv0 : (loop g inp).ktTimer.totalSeconds = 0 := by rw [hloop, hk]
      constructor
      · intro hlen
        simp at hlen
        omega
      · intro hlen
        have hnil : rest = [] := by
          apply List.eq_nil_of_length_eq_zero
          simp at hlen
          omega
        rw [hnil]
        exact ⟨hst, hv0⟩
    · have hk := runTimer_due_more g.ktTimer inp.tTick inp.tRestart he hm (by omega) (by omega)
      have hst : (loop g inp).ktTimer.state = KitchenTimerState.active := by
        rw [hloop, hk]
        exact hs
      have hmu : (loop g inp).ktTimer.multiplier = 1 := by
        rw [hloop, hk]
        exact hm
      have hv1 : (loop g inp).ktTimer.totalSeconds = n - 1 := by
        rw [hloop, hk]
        simp only
        omega
      have hih := ih (loop g inp) (n - 1) hst hmu hv1 (by omega) (by omega) hrest
      constructor
      · intro hlen
        have hlen2 : rest.length < n - 1 := by
          simp at hlen
          omega
        obtain ⟨e1, e2⟩ := hih.1 hlen2
        refine ⟨e1, ?_⟩
        rw [e2]
        simp
        omega
      · intro hlen
        have hlen2 : rest.length = n - 1 := by
          simp at hlen
          omega
        exact hih.2 hlen2

/-! ## Claims about the main loop -/

/-- C1 as stated fails: `loop()` processes the encoder before the button.  From
state off at 0:01 with the unit seconds applied, an iteration that sees a long
press together with a counterclockwise click first lowers the value to 0:00 and
then does not arm, so it ends in state off; together with a clockwise click it
arms, but at 0:02 instead of 0:01. -/
theorem C1_counterexample :
    oneSecondSet.ktTimer.state = KitchenTimerState.off ∧
      oneSecondSet.ktTimer.totalSeconds = 1 ∧
      (loop oneSecondSet
          (inputAt 1000 ButtonState.longPressed Direction.COUNTERCLOCKWISE)).ktTimer.state
        = KitchenTimerState.off ∧
      (loop oneSecondSet
          (inputAt 1000 ButtonState.longPressed Direction.COUNTERCLOCKWISE)).ktTimer.state
        ≠ KitchenTimerState.active ∧
      (loop oneSecondSet
          (inputAt 1000 ButtonState.longPressed Direction.COUNTERCLOCKWISE)).ktTimer.totalSeconds
        = 0 ∧
      (loop oneSecondSet
          (inputAt 1000 ButtonState.longPressed Direction.CLOCKWISE)).ktTimer.state
        = KitchenTimerState.active ∧
      (loop oneSecondSet
          (inputAt 1000 ButtonState.longPressed Direction.CLOCKWISE)).ktTimer.totalSeconds
        = 2 := by
  decide

/-- An iteration that starts in state active without button input and in which
no tick is due changes nothing. -/
theorem loop_active_not_due (g : Globals) (inp : LoopInput)
    (hs : g.ktTimer.state = KitchenTimerState.active)
    (hb : inp.button = ButtonState.notPressed)
    (he : g.ktTimer.elapsed inp.tTick SECOND = false) : loop g inp = g := by
  rw [loop_of_active g inp hs, hb, runTimer_not_due g.ktTimer inp.tTick inp.tRestart he]
  rfl

/-- C1, amended: for every countdown value `n` with `1 ≤ n ≤ 3599`, whatever unit
is being edited, an iteration of `loop()` that starts in state off and sees a
long press and no rotation (the encoder reports no rotation, or is not sampled
because the edited unit has just changed) ends in state active with the unit forced to seconds,
the value still `n` and the decrement clock started at the clock reading of the
press.  If then only due one-second ticks without button input follow, the
state after `k < n` ticks is active with value `n - k`, and after exactly `n`
ticks it is alarm with value 0. -/
theorem C1_arming_and_countdown (g : Globals) (arm : LoopInput) (n : Nat)
    (hn1 : 1 ≤ n) (hn2 : n ≤ 3599)
    (hs : g.ktTimer.state = KitchenTimerState.off) (hv : g.ktTimer.totalSeconds = n)
    (hb : arm.button = ButtonState.longPressed)
    (hd : arm.direction = Direction.NOROTATION ∨ g.input.lastState ≠ g.input.currentState) :
    (loop g arm).ktTimer.state = KitchenTimerState.active ∧
      (loop g arm).ktTimer.activeUnit = ActiveUnit.seconds ∧
      (loop g arm).ktTimer.multiplier = TIMEUNIT_SEC ∧
      (loop g arm).ktTimer.totalSeconds = n ∧
      (loop g arm).ktTimer.timeStamp = arm.tArm % UINT32_MOD ∧
      ∀ ticks : List LoopInput, onlyDueTicks (loop g arm) ticks = true →
        (ticks.length < n →
          (runLoop (loop g arm) ticks).ktTimer.state = KitchenTimerState.active ∧
            (runLoop (loop g arm) ticks).ktTimer.totalSeconds = n - ticks.length) ∧
        (ticks.length = n →
          (runLoop (loop g arm) ticks).ktTimer.state = KitchenTimerState.alarm ∧
            (runLoop (loop g arm) ticks).ktTimer.totalSeconds = 0) := by
  obtain ⟨e1, e2⟩ := loopOff_without_rotation g arm hs hd
  have h0 : (loopOff g arm).ktTimer.totalSeconds ≠ 0 := by omega
  have hl : loop g arm
      = { loopOff g arm with ktTimer :=
            { (loopOff g arm).ktTimer with
              state := KitchenTimerState.active, multiplier := 1,
              activeUnit := ActiveUnit.seconds, timeStamp := arm.tArm % UINT32_MOD } } := by
    rw [loop_of_off g arm hs, hb, askRtButton_long_off _ arm.tArm h0 e2]
  have hv2 : (loop g arm).ktTimer.totalSeconds = n := by rw [hl]; simp only; omega
  have hst : (loop g arm).ktTimer.state = KitchenTimerState.active := by rw [hl]
  have hmu : (loop g arm).ktTimer.multiplier = 1 := by rw [hl]
  refine ⟨hst, by rw [hl], hmu, hv2, by rw [hl], ?_⟩
  intro ticks hdue
  exact countdown_ticks ticks (loop g arm) n hst hmu hv2 hn1 (by omega) hdue

/-- Witness of C1, the case `n = 5` of the spec: from 0:05 in state off a long
press arms the countdown, and five due ticks later the state is alarm at 0:00. -/
theorem C1_arming_and_countdown_witness :
    (loop fiveSecondsSet (inputAt 1000 ButtonState.longPressed Direction.NOROTATION)).ktTimer.state
        = KitchenTimerState.active ∧
      alarmAfterFive.ktTimer.state = KitchenTimerState.alarm ∧
      alarmAfterFive.ktTimer.totalSeconds = 0 :=
  ⟨(C1_arming_and_countdown fiveSecondsSet
      (inputAt 1000 ButtonState.longPressed Direction.NOROTATION) 5 (by decide) (by decide)
      (by decide) (by decide) (by decide) (Or.inl (by decide))).1,
    ((C1_arming_and_countdown fiveSecondsSet
      (inputAt 1000 ButtonState.longPressed Direction.NOROTATION) 5 (by decide) (by decide)
      (by decide) (by decide) (by decide) (Or.inl (by decide))).2.2.2.2.2 fiveTicks
        (by decide)).2 (by decide)⟩

theorem alarm_rotation_zero (kT : KitchenTimer) (hm : kT.multiplier = 1)
    (h0 : kT.totalSeconds = 0) :
    (kT.increment.setSeconds 0).totalSeconds = 0 ∧ (kT.decrement.setSeconds 0).totalSeconds = 0 := by
  constructor
  · have e : kT.increment.totalSeconds = 1 := by
      simp [KitchenTimer.increment, hm, h0, add32, UINT32_MOD, MAX_TOTALSECONDS, MAX_MINUTES,
        TIMEUNIT_MIN]
    simp [KitchenTimer.setSeconds, e, add32, UINT32_MOD, MAX_TOTALSECONDS, MAX_MINUTES,
      TIMEUNIT_MIN, MAX_SECONDS]
  · have hw : sub32 0 1 > 60 * 60 := by decide
    have e : kT.decrement.totalSeconds = 0 := by
      simp [KitchenTimer.decrement, hm, h0, MAX_TOTALSECONDS, MAX_MINUTES, TIMEUNIT_MIN,
        TIMEUNIT_SEC, hw]
    simp [KitchenTimer.setSeconds, e, add32, UINT32_MOD, MAX_TOTALSECONDS, MAX_MINUTES,
      TIMEUNIT_MIN, MAX_SECONDS]

theorem init_defaultState (minutesDefault : Bool) :
    (InputState.init minutesDefault).defaultState
      = (if minutesDefault then InputState.state.minutes else InputState.state.seconds) := by
  cases minutesDefault <;> rfl

/-- C6: in every state reachable by the main loop in which the timer state is
alarm, an iteration in which the encoder reports a rotation, clockwise or
counterclockwise, ends with state off, `totalSeconds = 0`, `currentState` equal
to the configured default unit and `lastState` equal to the other unit. -/
theorem C6_rotation_silences_alarm (minutesDefault : Bool) (pinAlarm : Nat) (g : Globals)
    (inp : LoopInput) (hr : Reachable minutesDefault pinAlarm g)
    (hs : g.ktTimer.state = KitchenTimerState.alarm)
    (hrot : inp.direction ≠ Direction.NOROTATION) :
    (loop g inp).ktTimer.state = KitchenTimerState.off ∧
      (loop g inp).ktTimer.totalSeconds = 0 ∧
      (loop g inp).input.currentState
        = (if minutesDefault then InputState.state.minutes else InputState.state.seconds) ∧
      (loop g inp).input.lastState
        = (if minutesDefault then InputState.state.seconds else InputState.state.minutes) := by
  obtain ⟨hinv, hdef⟩ := reachable_inv minutesDefault pinAlarm g hr
  obtain ⟨hm, h0⟩ := hinv.2.2.2 hs
  obtain ⟨z1, z2⟩ := alarm_rotation_zero g.ktTimer hm h0
  rw [init_defaultState] at hdef
  have hin : (setDisplayForInput g).input.currentState
        = (if minutesDefault then InputState.state.minutes else InputState.state.seconds) ∧
      (setDisplayForInput g).input.lastState
        = (if minutesDefault then InputState.state.seconds else InputState.state.minutes) := by
    rw [setDisplayForInput_currentState, setDisplayForInput_lastState, hdef]
    cases minutesDefault <;> exact ⟨rfl, rfl⟩
  rw [loop_of_alarm g inp hs]
  cases hd : inp.direction with
  | NOROTATION => exact absurd hd hrot
  | CLOCKWISE =>
    obtain ⟨e1, e2⟩ := loopAlarm_clockwise g inp hd
    rw [e1, e2]
    exact ⟨rfl, z1, hin.1, hin.2⟩
  | COUNTERCLOCKWISE =>
    obtain ⟨e1, e2⟩ := loopAlarm_counterclockwise g inp hd
    rw [e1, e2]
    exact ⟨rfl, z2, hin.1, hin.2⟩

/-- Witness of C6: the alarm reached after counting down from 0:05 is silenced
by a clockwise click. -/
theorem C6_rotation_silences_alarm_witness :
    (loop alarmAfterFive (inputAt 7000 ButtonState.notPressed Direction.CLOCKWISE)).ktTimer.state
        = KitchenTimerState.off ∧
      (loop alarmAfterFive
          (inputAt 7000 ButtonState.notPressed Direction.CLOCKWISE)).ktTimer.totalSeconds = 0 ∧
      (loop alarmAfterFive
          (inputAt 7000 ButtonState.notPressed Direction.CLOCKWISE)).input.currentState
        = (if false then InputState.state.minutes else InputState.state.seconds) ∧
      (loop alarmAfterFive
          (inputAt 7000 ButtonState.notPressed Direction.CLOCKWISE)).input.lastState
        = (if false then InputState.state.seconds else InputState.state.minutes) :=
  C6_rotation_silences_alarm false 13 alarmAfterFive
    (inputAt 7000 ButtonState.notPressed Direction.CLOCKWISE)
    (reachable_runLoop false 13 _ _ (Reachable.step _ _
      (reachable_runLoop false 13 setFiveSeconds _ Reachable.init)))
    (by decide) (by decide)

/-- C7: an iteration of `loop()` that starts in state alarm is the alarm case
alone, without the later button query `askRtButton`.  With a button press,
short or long, it ends in state off (so not active) with `currentState` equal
to the default unit, and a short and a long press have the same effect; with no
press and no rotation the state stays alarm. -/
theorem C7_alarm_owns_button (g : Globals) (inp : LoopInput)
    (hs : g.ktTimer.state = KitchenTimerState.alarm) :
    loop g inp = loopAlarm g inp ∧
      (inp.button ≠ ButtonState.notPressed →
        (loop g inp).ktTimer.state = KitchenTimerState.off ∧
          (loop g inp).ktTimer.state ≠ KitchenTimerState.active ∧
          (loop g inp).input.currentState = g.input.defaultState ∧
          loop g { inp with button := ButtonState.shortPressed }
            = loop g { inp with button := ButtonState.longPressed }) ∧
      (inp.button = ButtonState.notPressed → inp.direction = Direction.NOROTATION →
        (loop g inp).ktTimer.state = KitchenTimerState.alarm) := by
  refine ⟨loop_of_alarm g inp hs, ?_, ?_⟩
  · intro hb
    have hoff : (loop g inp).ktTimer.state = KitchenTimerState.off ∧
        (loop g inp).input.currentState = g.input.defaultState := by
      rw [loop_of_alarm g inp hs]
      cases hd : inp.direction with
      | NOROTATION =>
        obtain ⟨e1, e2⟩ := loopAlarm_button_only g inp hb hd
        rw [e1, e2]
        exact ⟨rfl, rfl⟩
      | CLOCKWISE =>
        obtain ⟨e1, e2⟩ := loopAlarm_clockwise g inp hd
        rw [e1, e2]
        exact ⟨rfl, rfl⟩
      | COUNTERCLOCKWISE =>
        obtain ⟨e1, e2⟩ := loopAlarm_counterclockwise g inp hd
        rw [e1, e2]
        exact ⟨rfl, rfl⟩
    refine ⟨hoff.1, ?_, hoff.2, ?_⟩
    · rw [hoff.1]
      decide
    · rw [loop_of_alarm g _ hs, loop_of_alarm g _ hs]
      simp [loopAlarm]
  · intro hb hd
    rw [loop_of_alarm g inp hs, (loopAlarm_no_input g inp hb hd).1]
    exact hs

/-- Witness of C7: a short press in the alarm reached after counting down from
0:05 ends in state off with the default unit. -/
theorem C7_alarm_owns_button_witness :
    (loop alarmAfterFive (inputAt 7000 ButtonState.shortPressed Direction.NOROTATION)).ktTimer.state
        = KitchenTimerState.off ∧
      (loop alarmAfterFive
          (inputAt 7000 ButtonState.shortPressed Direction.NOROTATION)).input.currentState
        = alarmAfterFive.input.defaultState :=
  ⟨((C7_alarm_owns_button alarmAfterFive
      (inputAt 7000 ButtonState.shortPressed Direction.NOROTATION) (by decide)).2.1 (by decide)).1,
    ((C7_alarm_owns_button alarmAfterFive
      (inputAt 7000 ButtonState.shortPressed Direction.NOROTATION) (by decide)).2.1
        (by decide)).2.2.1⟩

/-- C8: for every timer state and every input state, `askRtButton` with a long
press while `totalSeconds = 0` returns the globals unchanged: timer state,
countdown value, edited unit, decrement time stamp and `InputState` stay as
they are. -/
theorem C8_long_press_at_zero_is_noop (g : Globals) (tArm : Nat)
    (h0 : g.ktTimer.totalSeconds = 0) :
    askRtButton g ButtonState.longPressed tArm = g :=
  askRtButton_long_zero g tArm h0

/-- Witness of C8: a long press right after start-up, at 0:00, changes nothing. -/
theorem C8_long_press_at_zero_is_noop_witness :
    askRtButton (initGlobals false 13) ButtonState.longPressed 1000 = initGlobals false 13 :=
  C8_long_press_at_zero_is_noop (initGlobals false 13) 1000 (by decide)

/-- C9 at the failing input: the countdown armed at 0:01 is active with
`currentState = seconds`; an iteration in which the last tick is due and the
button reports a short press ends in state alarm with `currentState` toggled to
minutes. -/
theorem C9_short_press_on_last_tick_toggles_unit :
    oneSecondArmed.ktTimer.state = KitchenTimerState.active ∧
      oneSecondArmed.ktTimer.totalSeconds = 1 ∧
      oneSecondArmed.input.currentState = InputState.state.seconds ∧
      (loop oneSecondArmed
          (inputAt 1997 ButtonState.shortPressed Direction.NOROTATION)).ktTimer.state
        = KitchenTimerState.alarm ∧
      (loop oneSecondArmed
          (inputAt 1997 ButtonState.shortPressed Direction.NOROTATION)).input.currentState
        = InputState.state.minutes := by
  decide

/-- A short press in an iteration that starts in state active and is still
active after `runTimer` leaves the whole `InputState` unchanged. -/
theorem short_press_ignored_while_still_active (g : Globals) (inp : LoopInput)
    (hs : g.ktTimer.state = KitchenTimerState.active)
    (hb : inp.button = ButtonState.shortPressed)
    (hstill : (runTimer g.ktTimer inp.tTick inp.tRestart).1.state = KitchenTimerState.active) :
    (loop g inp).input = g.input := by
  rw [loop_of_active g inp hs, hb]
  simp [askRtButton, KitchenTimer.getState, hstill]

/-! ## Setters of the countdown value -/

theorem setMinutes_totalSeconds_eq (kT : KitchenTimer) (m : Nat) (hm : m ≤ 1092) :
    (kT.setMinutes m).totalSeconds = min (kT.totalSeconds % 60 + 60 * m) 3600 := by
  have h1 : 60 * m % 65536 = 60 * m := Nat.mod_eq_of_lt (by omega)
  have h2 : (kT.totalSeconds % 60 + 60 * m) % 4294967296 = kT.totalSeconds % 60 + 60 * m :=
    Nat.mod_eq_of_lt (by omega)
  simp only [KitchenTimer.setMinutes, add32, UINT32_MOD, UINT16_MOD, MAX_TOTALSECONDS,
    MAX_MINUTES, TIMEUNIT_MIN, ite_self, h1, h2]
  split_ifs <;> omega

theorem setSeconds_totalSeconds_eq (kT : KitchenTimer) (s : Nat) (ht : kT.totalSeconds ≤ 3600) :
    (kT.setSeconds s).totalSeconds
      = kT.totalSeconds / 60 * 60
        + (if s > 59 then 59 else if kT.totalSeconds / 60 * 60 = 3600 then 0 else s) := by
  simp only [KitchenTimer.setSeconds, add32, UINT32_MOD, MAX_TOTALSECONDS, MAX_MINUTES,
    TIMEUNIT_MIN, MAX_SECONDS]
  apply Nat.mod_eq_of_lt
  split_ifs <;> omega

theorem setSeconds_above_max (kT : KitchenTimer) (s : Nat) (ht : kT.totalSeconds ≤ 3600)
    (hs : s > 59) : (kT.setSeconds s).getSeconds = 59 := by
  simp only [KitchenTimer.getSeconds, setSeconds_totalSeconds_eq kT s ht, hs, if_true,
    TIMEUNIT_MIN]
  omega

theorem setMinutes_above_max_without_wrap (kT : KitchenTimer) (m : Nat) (h1 : 60 < m)
    (h2 : m ≤ 1092) :
    (kT.setMinutes m).totalSeconds = 3600 ∧
      (kT.setMinutes m).totalSeconds = (kT.setMinutes 60).totalSeconds := by
  rw [setMinutes_totalSeconds_eq kT m h2, setMinutes_totalSeconds_eq kT 60 (by omega)]
  omega

theorem setSeconds_in_range_at_max (kT : KitchenTimer) (s : Nat)
    (ht : kT.totalSeconds = 3600) (hs : s ≤ 59) : (kT.setSeconds s).totalSeconds = 3600 := by
  have hs2 : ¬ s > 59 := by omega
  rw [setSeconds_totalSeconds_eq kT s (by omega), ht]
  simp [hs2]

/-- C11 as stated fails: from 0:05, `setMinutes(60)` clamps the total to 3600,
so `getSeconds()` changes from 5 to 0. -/
theorem C11_counterexample :
    ({ totalSeconds := 5 } : KitchenTimer).totalSeconds ≤ 3600 ∧
      ({ totalSeconds := 5 } : KitchenTimer).getSeconds = 5 ∧
      (({ totalSeconds := 5 } : KitchenTimer).setMinutes 60).getSeconds = 0 ∧
      (({ totalSeconds := 5 } : KitchenTimer).setMinutes 60).getSeconds
        ≠ ({ totalSeconds := 5 } : KitchenTimer).getSeconds := by
  decide

/-- C11, amended: for every starting value with `totalSeconds ≤ 3600`,
`setSeconds(s)` leaves `getMinutes()` unchanged for every `s`, and
`setMinutes(m)` leaves `getSeconds()` unchanged whenever the new total
`getSeconds() + 60 * m` is at most 3600, which holds for every `m ≤ 59`; when
that total exceeds 3600 (and `m ≤ 1092`, so that `60 * m` fits 16 bits) the
value is clamped to 3600 and `getSeconds()` becomes 0. -/
theorem C11_setters_preserve_other_field (kT : KitchenTimer) (m s : Nat)
    (ht : kT.totalSeconds ≤ 3600) :
    (kT.setSeconds s).getMinutes = kT.getMinutes ∧
      (m ≤ 59 → (kT.setMinutes m).getSeconds = kT.getSeconds) ∧
      (m ≤ 1092 → kT.getSeconds + 60 * m ≤ 3600 →
        (kT.setMinutes m).getSeconds = kT.getSeconds) ∧
      (m ≤ 1092 → 3600 < kT.getSeconds + 60 * m →
        (kT.setMinutes m).totalSeconds = 3600 ∧ (kT.setMinutes m).getSeconds = 0) := by
  refine ⟨?_, ?_, ?_, ?_⟩
  · simp only [KitchenTimer.getMinutes, setSeconds_totalSeconds_eq kT s ht, TIMEUNIT_MIN]
    split_ifs <;> omega
  · intro hm
    simp only [KitchenTimer.getSeconds, setMinutes_totalSeconds_eq kT m (by omega), TIMEUNIT_MIN]
    omega
  · intro hm hle
    simp only [KitchenTimer.getSeconds, TIMEUNIT_MIN] at hle ⊢
    rw [setMinutes_totalSeconds_eq kT m hm]
    omega
  · intro hm hgt
    simp only [KitchenTimer.getSeconds, TIMEUNIT_MIN] at hgt ⊢
    rw [setMinutes_totalSeconds_eq kT m hm]
    omega

/-- Witness of C11: from 12:34, `setSeconds(7)` keeps 12 minutes and
`setMinutes(3)` keeps 34 seconds. -/
theorem C11_setters_preserve_other_field_witness :
    (({ totalSeconds := 754 } : KitchenTimer).setSeconds 7).getMinutes
        = ({ totalSeconds := 754 } : KitchenTimer).getMinutes ∧
      (({ totalSeconds := 754 } : KitchenTimer).setMinutes 3).getSeconds
        = ({ totalSeconds := 754 } : KitchenTimer).getSeconds :=
  ⟨(C11_setters_preserve_other_field { totalSeconds := 754 } 3 7 (by decide)).1,
    (C11_setters_preserve_other_field { totalSeconds := 754 } 3 7 (by decide)).2.1 (by decide)⟩

/-- C12 at the failing input: on the value 0:00, `setMinutes(1093)` stores
`60 * 1093 mod 65536 = 44` in the 16 bit local and leaves `totalSeconds = 44`,
while `setMinutes(60)` gives the maximum 3600. -/
theorem C12_setMinutes_1093_wraps :
    (({ } : KitchenTimer).setMinutes 1093).totalSeconds = 44 ∧
      (({ } : KitchenTimer).setMinutes 1093).getMinutes = 0 ∧
      (({ } : KitchenTimer).setMinutes 60).totalSeconds = 3600 ∧
      (({ } : KitchenTimer).setMinutes 1093).totalSeconds
        < (({ } : KitchenTimer).setMinutes 60).totalSeconds := by
  decide

/-- C13 at the failing input: `KitchenTimer(60, 0)` is at `MAX_TOTALSECONDS`;
`setSeconds(60)` then gives 3659, with seconds component 59, above the
maximum. -/
theorem C13_setSeconds_above_59_at_max :
    (KitchenTimer.construct 60 0).totalSeconds = MAX_TOTALSECONDS ∧
      ((KitchenTimer.construct 60 0).setSeconds 60).totalSeconds = 3659 ∧
      ((KitchenTimer.construct 60 0).setSeconds 60).getSeconds = 59 ∧
      ((KitchenTimer.construct 60 0).setSeconds 60).totalSeconds > MAX_TOTALSECONDS := by
  decide

/-- C16: for every `totalSeconds` in `[0, 3599]`,
`getMinutes() * 60 + getSeconds() = totalSeconds` and `getSeconds() < 60`. -/
theorem C16_views_recompose_total (kT : KitchenTimer) (ht : kT.totalSeconds ≤ 3599) :
    kT.getMinutes * 60 + kT.getSeconds = kT.totalSeconds ∧ kT.getSeconds < 60 ∧
      kT.getMinutes ≤ 59 := by
  simp only [KitchenTimer.getMinutes, KitchenTimer.getSeconds, TIMEUNIT_MIN]
  omega

/-- Witness of C16 at 59:59. -/
theorem C16_views_recompose_total_witness :
    ({ totalSeconds := 3599 } : KitchenTimer).getMinutes * 60
        + ({ totalSeconds := 3599 } : KitchenTimer).getSeconds
        = ({ totalSeconds := 3599 } : KitchenTimer).totalSeconds ∧
      ({ totalSeconds := 3599 } : KitchenTimer).getSeconds < 60 ∧
      ({ totalSeconds := 3599 } : KitchenTimer).getMinutes ≤ 59 :=
  C16_views_recompose_total { totalSeconds := 3599 } (by decide)

/-! ## Elapsed check -/

theorem sub32_add_mod (t0 d : Nat) (hd : d < 4294967296) :
    sub32 ((t0 + d) % UINT32_MOD) t0 = d := by
  simp only [sub32, UINT32_MOD]
  have h1 : (t0 + d) % 4294967296 = (t0 % 4294967296 + d) % 4294967296 := by omega
  rw [Nat.mod_mod, h1]
  have h3 : t0 % 4294967296 < 4294967296 := Nat.mod_lt _ (by decide)
  rcases Nat.lt_or_ge (t0 % 4294967296 + d) 4294967296 with h | h
  · rw [Nat.mod_eq_of_lt h]
    omega
  · have h4 : (t0 % 4294967296 + d) % 4294967296 = t0 % 4294967296 + d - 4294967296 := by omega
    rw [h4]
    omega

/-- C19: for every start time stamp `t0` and every elapsed time `d < 2^32`,
when `millis()` returns `(t0 + d) mod 2^32` the elapsed check with argument
`duration` is true exactly when `d ≥ duration`; this holds for
`KitchenTimer::operator()` and for `TimerHelper::operator()`, for a time stamp
stored by `start()` and for any stored time stamp. -/
theorem C19_elapsed_across_rollover (kT : KitchenTimer) (th : TimerHelper)
    (t0 d duration : Nat) (hd : d < 4294967296) :
    ((kT.start t0).elapsed ((t0 + d) % UINT32_MOD) duration = true ↔ d ≥ duration) ∧
      ((th.start t0).elapsed ((t0 + d) % UINT32_MOD) duration = true ↔ d ≥ duration) ∧
      (kT.elapsed ((kT.timeStamp + d) % UINT32_MOD) duration = true ↔ d ≥ duration) ∧
      (th.elapsed ((th.timeStamp + d) % UINT32_MOD) duration = true ↔ d ≥ duration) := by
  have hs : sub32 ((t0 + d) % UINT32_MOD) (t0 % UINT32_MOD) = d := by
    have h := sub32_add_mod t0 d hd
    simp only [sub32, UINT32_MOD, Nat.mod_mod] at h ⊢
    exact h
  refine ⟨?_, ?_, ?_, ?_⟩
  · simp [KitchenTimer.elapsed, KitchenTimer.start, hs]
  · simp [TimerHelper.elapsed, TimerHelper.start, hs]
  · simp [KitchenTimer.elapsed, sub32_add_mod kT.timeStamp d hd]
  · simp [TimerHelper.elapsed, sub32_add_mod th.timeStamp d hd]

/-- Witness of C19: started 96 ms before the 32 bit clock rolls over, the check
for 997 ms is false after 996 ms and true after 997 ms. -/
theorem C19_elapsed_across_rollover_witness :
    ((({ } : KitchenTimer).start 4294967200).elapsed ((4294967200 + 997) % UINT32_MOD) 997 = true
        ↔ 997 ≥ 997) ∧
      ((({ } : KitchenTimer).start 4294967200).elapsed ((4294967200 + 996) % UINT32_MOD) 997 = true
        ↔ 996 ≥ 997) :=
  ⟨(C19_elapsed_across_rollover { } { } 4294967200 997 997 (by decide)).1,
    (C19_elapsed_across_rollover { } { } 4294967200 996 997 (by decide)).1⟩

/-! ## Edited unit -/

theorem askEncoder_unit (dir : Direction) (kT : KitchenTimer) :
    (askEncoder dir kT).1.activeUnit = kT.activeUnit ∧
      (askEncoder dir kT).1.multiplier = kT.multiplier ∧
      (askEncoder dir kT).1.state = kT.state := by
  cases dir <;> exact ⟨rfl, rfl, rfl⟩

theorem processInput_edit (g : Globals) (dir : Direction)
    (hs : g.ktTimer.state = KitchenTimerState.off) (h : EditInv g) :
    (processInput g dir).1.ktTimer.state = KitchenTimerState.off ∧
      (processInput g dir).1.input.lastState = (processInput g dir).1.input.currentState ∧
      UnitAgrees (processInput g dir).1 := by
  by_cases hne : g.input.lastState ≠ g.input.currentState
  · rw [processInput_unit_changed g dir hne]
    refine ⟨?_, rfl, ?_⟩
    · cases g.input.currentState <;> exact hs
    · cases hc : g.input.currentState with
      | seconds => exact Or.inl ⟨hc, rfl, rfl⟩
      | minutes => exact Or.inr ⟨hc, rfl, rfl⟩
  · have heq : g.input.lastState = g.input.currentState := by simpa using hne
    obtain ⟨u1, u2, u3⟩ := askEncoder_unit dir g.ktTimer
    rw [processInput_unit_same g dir heq hs]
    refine ⟨by rw [u3]; exact hs, heq, ?_⟩
    rcases h hs heq with ⟨a, b, c⟩ | ⟨a, b, c⟩
    · exact Or.inl ⟨a, by rw [u1]; exact b, by rw [u2]; exact c⟩
    · exact Or.inr ⟨a, by rw [u1]; exact b, by rw [u2]; exact c⟩

theorem loopOff_edit (g : Globals) (inp : LoopInput)
    (hs : g.ktTimer.state = KitchenTimerState.off) (h : EditInv g) :
    (loopOff g inp).ktTimer.state = KitchenTimerState.off ∧
      (loopOff g inp).input.lastState = (loopOff g inp).input.currentState ∧
      UnitAgrees (loopOff g inp) := by
  have hp := processInput_edit g inp.direction hs h
  unfold loopOff
  simp only
  split_ifs <;> exact hp

theorem setDisplayForInput_mismatch (g : Globals) :
    (setDisplayForInput g).input.lastState ≠ (setDisplayForInput g).input.currentState := by
  rw [setDisplayForInput_lastState, setDisplayForInput_currentState]
  cases g.input.defaultState <;> decide

theorem editInv_of_not_off (g : Globals) (h : g.ktTimer.state ≠ KitchenTimerState.off) :
    EditInv g := fun hs => absurd hs h

theorem editInv_of_mismatch (g : Globals) (h : g.input.lastState ≠ g.input.currentState) :
    EditInv g := fun _ heq => absurd heq h

theorem askRtButton_short_off (g : Globals) (tArm : Nat)
    (hs : g.ktTimer.state = KitchenTimerState.off) :
    (askRtButton g ButtonState.shortPressed tArm).input.lastState = g.input.lastState ∧
      (askRtButton g ButtonState.shortPressed tArm).input.currentState ≠ g.input.currentState := by
  have hne : ¬ g.ktTimer.getState = KitchenTimerState.active := by
    simp [KitchenTimer.getState, hs]
  simp only [askRtButton, hne, if_false]
  cases g.input.currentState <;> exact ⟨rfl, fun hc => InputState.state.noConfusion hc⟩

theorem askRtButton_editInv_off (g : Globals) (b : ButtonState) (tArm : Nat)
    (hs : g.ktTimer.state = KitchenTimerState.off)
    (heq : g.input.lastState = g.input.currentState) (hu : UnitAgrees g) :
    EditInv (askRtButton g b tArm) := by
  cases b with
  | notPressed => exact fun _ _ => hu
  | shortPressed =>
    obtain ⟨e1, e2⟩ := askRtButton_short_off g tArm hs
    apply editInv_of_mismatch
    rw [e1, heq]
    exact fun hc => e2 hc.symm
  | longPressed =>
    by_cases h0 : g.ktTimer.totalSeconds = 0
    · rw [askRtButton_long_zero g tArm h0]
      exact fun _ _ => hu
    · rw [askRtButton_long_off g tArm h0 hs]
      apply editInv_of_not_off
      simp

theorem runTimer_state (kT : KitchenTimer) (tTick tRestart : Nat)
    (hs : kT.state = KitchenTimerState.active) :
    (runTimer kT tTick tRestart).1.state ≠ KitchenTimerState.off := by
  unfold runTimer
  simp only
  split_ifs
  · split
    · simp [KitchenTimer.start, KitchenTimer.decrement, hs]
    · simp [KitchenTimer.setState]
  · simp [hs]

theorem askRtButton_editInv_not_off (g : Globals) (b : ButtonState) (tArm : Nat)
    (hs : g.ktTimer.state ≠ KitchenTimerState.off) :
    EditInv (askRtButton g b tArm) := by
  cases b with
  | notPressed => exact editInv_of_not_off g hs
  | shortPressed =>
    apply editInv_of_not_off
    rw [askRtButton_short_ktTimer]
    exact hs
  | longPressed =>
    by_cases h0 : g.ktTimer.totalSeconds = 0
    · rw [askRtButton_long_zero g tArm h0]
      exact editInv_of_not_off g hs
    · cases hst : g.ktTimer.state with
      | off => exact absurd hst hs
      | active =>
        rw [askRtButton_long_active g tArm h0 hst]
        exact editInv_of_mismatch _ (setDisplayForInput_mismatch g)
      | alarm =>
        rw [askRtButton_long_alarm g tArm hst]
        exact editInv_of_not_off g hs

theorem loopAlarm_editInv (g : Globals) (inp : LoopInput)
    (hs : g.ktTimer.state = KitchenTimerState.alarm) : EditInv (loopAlarm g inp) := by
  cases hd : inp.direction with
  | NOROTATION =>
    by_cases hb : inp.button = ButtonState.notPressed
    · apply editInv_of_not_off
      rw [(loopAlarm_no_input g inp hb hd).1, hs]
      decide
    · apply editInv_of_mismatch
      rw [(loopAlarm_button_only g inp hb hd).2]
      exact setDisplayForInput_mismatch g
  | CLOCKWISE =>
    apply editInv_of_mismatch
    rw [(loopAlarm_clockwise g inp hd).2]
    exact setDisplayForInput_mismatch g
  | COUNTERCLOCKWISE =>
    apply editInv_of_mismatch
    rw [(loopAlarm_counterclockwise g inp hd).2]
    exact setDisplayForInput_mismatch g

theorem loop_editInv (g : Globals) (inp : LoopInput) (h : EditInv g) : EditInv (loop g inp) := by
  cases hs : g.ktTimer.state with
  | off =>
    rw [loop_of_off g inp hs]
    obtain ⟨h1, h2, h3⟩ := loopOff_edit g inp hs h
    exact askRtButton_editInv_off _ _ _ h1 h2 h3
  | active =>
    rw [loop_of_active g inp hs]
    exact askRtButton_editInv_not_off _ _ _ (runTimer_state g.ktTimer inp.tTick inp.tRestart hs)
  | alarm =>
    rw [loop_of_alarm g inp hs]
    exact loopAlarm_editInv g inp hs

theorem reachable_editInv (minutesDefault : Bool) (pinAlarm : Nat) (g : Globals)
    (hr : Reachable minutesDefault pinAlarm g) : EditInv g := by
  induction hr with
  | init =>
    apply editInv_of_mismatch
    cases minutesDefault <;> exact fun hc => InputState.state.noConfusion hc
  | step g inp _ ih => exact loop_editInv g inp ih

theorem increment_totalSeconds_eq (kT : KitchenTimer) (ht : kT.totalSeconds ≤ 3600)
    (hm : kT.multiplier ≤ 60) :
    kT.increment.totalSeconds = min (kT.totalSeconds + kT.multiplier) 3600 := by
  have h1 : (kT.totalSeconds + kT.multiplier) % 4294967296 = kT.totalSeconds + kT.multiplier :=
    Nat.mod_eq_of_lt (by omega)
  simp only [KitchenTimer.increment, add32, UINT32_MOD, MAX_TOTALSECONDS, MAX_MINUTES,
    TIMEUNIT_MIN, Nat.one_mul, h1]
  split_ifs <;> omega

theorem decrement_totalSeconds_eq (kT : KitchenTimer) (ht : kT.totalSeconds ≤ 3600)
    (hm : kT.multiplier ≤ kT.totalSeconds) :
    kT.decrement.totalSeconds = kT.totalSeconds - kT.multiplier := by
  have h1 : sub32 kT.totalSeconds kT.multiplier = kT.totalSeconds - kT.multiplier := by
    simp only [sub32, UINT32_MOD]
    omega
  simp only [KitchenTimer.decrement, Nat.one_mul, h1, MAX_TOTALSECONDS, MAX_MINUTES,
    TIMEUNIT_MIN]
  split_ifs <;> omega

/-! ## Claims about the countdown tick and the edited unit -/

/-- C17: in every state reachable by the main loop in which the timer state is
active, the unit of the countdown value is seconds with multiplier 1 and
`totalSeconds ≥ 1`; the 32 bit subtraction of `runTimer` does not wrap and is
not clamped, and every due tick lowers `totalSeconds` by exactly 1. -/
theorem C17_countdown_ticks_by_one (minutesDefault : Bool) (pinAlarm : Nat) (g : Globals)
    (hr : Reachable minutesDefault pinAlarm g)
    (hs : g.ktTimer.state = KitchenTimerState.active) :
    g.ktTimer.activeUnit = ActiveUnit.seconds ∧
      g.ktTimer.multiplier = TIMEUNIT_SEC ∧
      1 ≤ g.ktTimer.totalSeconds ∧
      sub32 g.ktTimer.totalSeconds (1 * g.ktTimer.multiplier) = g.ktTimer.totalSeconds - 1 ∧
      ¬ sub32 g.ktTimer.totalSeconds (1 * g.ktTimer.multiplier) > MAX_TOTALSECONDS ∧
      ∀ tTick tRestart : Nat, g.ktTimer.elapsed tTick SECOND = true →
        (runTimer g.ktTimer tTick tRestart).1.totalSeconds + 1 = g.ktTimer.totalSeconds := by
  obtain ⟨⟨hu, hle, hact, _⟩, _⟩ := reachable_inv minutesDefault pinAlarm g hr
  obtain ⟨hm, hpos⟩ := hact hs
  have hsec : g.ktTimer.activeUnit = ActiveUnit.seconds := by
    rcases hu with h | h
    · exact h.2
    · omega
  have hsub : sub32 g.ktTimer.totalSeconds (1 * g.ktTimer.multiplier)
      = g.ktTimer.totalSeconds - 1 := by
    rw [hm]
    exact sub32_one_of_pos _ hpos hle
  refine ⟨hsec, hm, hpos, hsub, ?_, ?_⟩
  · rw [hsub]
    simp only [MAX_TOTALSECONDS, MAX_MINUTES, TIMEUNIT_MIN]
    omega
  · intro tTick tRestart he
    rcases Nat.lt_or_ge g.ktTimer.totalSeconds 2 with h2 | h2
    · rw [runTimer_due_last g.ktTimer tTick tRestart he hm (by omega)]
      simp only
      omega
    · rw [runTimer_due_more g.ktTimer tTick tRestart he hm h2 hle]
      simp only
      omega

/-- Witness of C17: the countdown armed at 0:05 counts seconds, and the tick
due at clock reading 1997 leaves 0:04. -/
theorem C17_countdown_ticks_by_one_witness :
    fiveSecondsArmed.ktTimer.activeUnit = ActiveUnit.seconds ∧
      fiveSecondsArmed.ktTimer.multiplier = TIMEUNIT_SEC ∧
      (runTimer fiveSecondsArmed.ktTimer 1997 1997).1.totalSeconds + 1
        = fiveSecondsArmed.ktTimer.totalSeconds :=
  ⟨(C17_countdown_ticks_by_one false 13 fiveSecondsArmed
      (Reachable.step _ _ (reachable_runLoop false 13 setFiveSeconds _ Reachable.init))
      (by decide)).1,
    (C17_countdown_ticks_by_one false 13 fiveSecondsArmed
      (Reachable.step _ _ (reachable_runLoop false 13 setFiveSeconds _ Reachable.init))
      (by decide)).2.1,
    (C17_countdown_ticks_by_one false 13 fiveSecondsArmed
      (Reachable.step _ _ (reachable_runLoop false 13 setFiveSeconds _ Reachable.init))
      (by decide)).2.2.2.2.2 1997 1997 (by decide)⟩

/-- C18: for every call of `processInput` with `lastState ≠ currentState`,
whatever the encoder would report, the call returns true, `totalSeconds` is
unchanged, the active unit and the multiplier of the timer become those of
`currentState`, `lastState` becomes `currentState`, and the result does not
depend on the encoder at all. -/
theorem C18_unit_change_before_rotation (g : Globals) (dir : Direction)
    (hne : g.input.lastState ≠ g.input.currentState) :
    (processInput g dir).2 = true ∧
      (processInput g dir).1.ktTimer.totalSeconds = g.ktTimer.totalSeconds ∧
      (processInput g dir).1.input.lastState = g.input.currentState ∧
      (processInput g dir).1.input.currentState = g.input.currentState ∧
      (g.input.currentState = InputState.state.seconds →
        (processInput g dir).1.ktTimer.activeUnit = ActiveUnit.seconds ∧
          (processInput g dir).1.ktTimer.multiplier = TIMEUNIT_SEC) ∧
      (g.input.currentState = InputState.state.minutes →
        (processInput g dir).1.ktTimer.activeUnit = ActiveUnit.minutes ∧
          (processInput g dir).1.ktTimer.multiplier = TIMEUNIT_MIN) ∧
      processInput g dir = processInput g Direction.NOROTATION := by
  rw [processInput_unit_changed g dir hne, processInput_unit_changed g Direction.NOROTATION hne]
  refine ⟨rfl, ?_, rfl, rfl, ?_, ?_, rfl⟩
  · cases g.input.currentState <;> rfl
  · intro hc
    rw [hc]
    exact ⟨rfl, rfl⟩
  · intro hc
    rw [hc]
    exact ⟨rfl, rfl⟩

/-- Witness of C18: in the first iteration after a start-up with minutes as
default unit a clockwise click is not counted; the unit minutes is applied. -/
theorem C18_unit_change_before_rotation_witness :
    (processInput (initGlobals true 13) Direction.CLOCKWISE).2 = true ∧
      (processInput (initGlobals true 13) Direction.CLOCKWISE).1.ktTimer.totalSeconds
        = (initGlobals true 13).ktTimer.totalSeconds ∧
      (processInput (initGlobals true 13) Direction.CLOCKWISE).1.ktTimer.multiplier
        = TIMEUNIT_MIN :=
  ⟨(C18_unit_change_before_rotation (initGlobals true 13) Direction.CLOCKWISE (by decide)).1,
    (C18_unit_change_before_rotation (initGlobals true 13) Direction.CLOCKWISE (by decide)).2.1,
    ((C18_unit_change_before_rotation (initGlobals true 13) Direction.CLOCKWISE
      (by decide)).2.2.2.2.2.1 (by decide)).2⟩

/-- C20: in every state reachable by the main loop at an iteration boundary
with state off and `lastState = currentState`, the active unit of the timer is
the unit `currentState` names and the multiplier is 1 for seconds and 60 for
minutes; a clockwise click then adds that unit, clamped at 3600, and a
counterclockwise click subtracts it when the value is large enough. -/
theorem C20_edited_unit_agrees (minutesDefault : Bool) (pinAlarm : Nat) (g : Globals)
    (hr : Reachable minutesDefault pinAlarm g)
    (hs : g.ktTimer.state = KitchenTimerState.off)
    (heq : g.input.lastState = g.input.currentState) :
    (g.input.currentState = InputState.state.seconds →
        g.ktTimer.activeUnit = ActiveUnit.seconds ∧ g.ktTimer.multiplier = 1) ∧
      (g.input.currentState = InputState.state.minutes →
        g.ktTimer.activeUnit = ActiveUnit.minutes ∧ g.ktTimer.multiplier = 60) ∧
      (processInput g Direction.CLOCKWISE).1.ktTimer.totalSeconds
        = min (g.ktTimer.totalSeconds
            + (if g.input.currentState = InputState.state.seconds then 1 else 60)) 3600 ∧
      ((if g.input.currentState = InputState.state.seconds then 1 else 60)
          ≤ g.ktTimer.totalSeconds →
        (processInput g Direction.COUNTERCLOCKWISE).1.ktTimer.totalSeconds
          = g.ktTimer.totalSeconds
            - (if g.input.currentState = InputState.state.seconds then 1 else 60)) := by
  obtain ⟨⟨_, hle, _, _⟩, _⟩ := reachable_inv minutesDefault pinAlarm g hr
  have hu := reachable_editInv minutesDefault pinAlarm g hr hs heq
  have hmul : g.ktTimer.multiplier
      = (if g.input.currentState = InputState.state.seconds then 1 else 60) := by
    rcases hu with ⟨a, _, c⟩ | ⟨a, _, c⟩
    · rw [a, c]
      rfl
    · rw [a, c]
      rfl
  refine ⟨?_, ?_, ?_, ?_⟩
  · intro hc
    rcases hu with ⟨_, b, c⟩ | ⟨a, _, _⟩
    · exact ⟨b, c⟩
    · rw [hc] at a
      cases a
  · intro hc
    rcases hu with ⟨a, _, _⟩ | ⟨_, b, c⟩
    · rw [hc] at a
      cases a
    · exact ⟨b, c⟩
  · rw [processInput_unit_same g Direction.CLOCKWISE heq hs, ← hmul]
    have hm60 : g.ktTimer.multiplier ≤ 60 := by
      rw [hmul]
      split_ifs <;> omega
    exact increment_totalSeconds_eq g.ktTimer hle hm60
  · intro hge
    rw [processInput_unit_same g Direction.COUNTERCLOCKWISE heq hs, ← hmul]
    rw [← hmul] at hge
    exact decrement_totalSeconds_eq g.ktTimer hle hge

/-- Witness of C20: after a start-up with minutes as default unit and the first
iteration, the state is off with `lastState = currentState = minutes`, and the
timer edits minutes with multiplier 60. -/
theorem C20_edited_unit_agrees_witness :
    minutesApplied.input.currentState = InputState.state.minutes ∧
      minutesApplied.ktTimer.activeUnit = ActiveUnit.minutes ∧
      minutesApplied.ktTimer.multiplier = 60 :=
  ⟨by decide,
    (C20_edited_unit_agrees true 13 minutesApplied (Reachable.step _ _ Reachable.init)
      (by decide) (by decide)).2.1 (by decide)⟩

/-! ## Alarm sequencer -/

theorem playAlarm_without_reset (a : AlarmTone) (tDelay tDelayStart tTone tToneStart : Nat)
    (h : a.delayTimer.elapsed tDelay ALARM_DELAY_MS = false) :
    a.playAlarm tDelay tDelayStart tTone tToneStart = a.play tTone tToneStart := by
  simp [AlarmTone.playAlarm, h]

theorem playAlarm_with_reset (a : AlarmTone) (tDelay tDelayStart tTone tToneStart : Nat)
    (h : a.delayTimer.elapsed tDelay ALARM_DELAY_MS = true) :
    a.playAlarm tDelay tDelayStart tTone tToneStart
      = ({ a.reset with delayTimer := a.reset.delayTimer.start tDelayStart }).play tTone
          tToneStart := by
  simp [AlarmTone.playAlarm, h]

theorem play_finished (a : AlarmTone) (tCheck tStart : Nat) (h : a.alarmFinished = true) :
    a.play tCheck tStart = (a, []) := by
  simp [AlarmTone.play, h]

theorem play_remainingNotes (a : AlarmTone) (tCheck tStart : Nat)
    (hv : a.alarmFinished = true ∨ a.tonesIndex ≤ 1) :
    ((a.play tCheck tStart).1.alarmFinished = true ∨ (a.play tCheck tStart).1.tonesIndex ≤ 1) ∧
      (a.play tCheck tStart).2.filter BuzzerEvent.isTone
          ++ (a.play tCheck tStart).1.remainingNotes
        = a.remainingNotes := by
  cases hf : a.alarmFinished with
  | true =>
    rw [play_finished a tCheck tStart hf]
    exact ⟨Or.inl hf, rfl⟩
  | false =>
    have hi : a.tonesIndex ≤ 1 := by
      rcases hv with h | h
      · rw [hf] at h
        cases h
      · exact h
    cases ho : a.outputTone with
    | true =>
      by_cases he : a.toneTimer.elapsed tCheck a.toneDuration = true
      · simp [AlarmTone.play, hf, ho, he, AlarmTone.remainingNotes, AlarmTone.noteEvent,
          BuzzerEvent.isTone, hi]
      · simp [AlarmTone.play, hf, ho, he, AlarmTone.remainingNotes, hi]
    | false =>
      by_cases he : a.toneTimer.elapsed tCheck a.pauseBetweenNotes = true
      · rcases Nat.lt_or_ge a.tonesIndex 1 with h0 | h1
        · have hz : a.tonesIndex = 0 := by omega
          simp [AlarmTone.play, hf, ho, he, hz, AlarmTone.remainingNotes, AlarmTone.noteEvent,
            BuzzerEvent.isTone, UINT8_MOD, MAX_TONES]
        · have hone : a.tonesIndex = 1 := by omega
          simp [AlarmTone.play, hf, ho, he, hone, AlarmTone.remainingNotes, AlarmTone.noteEvent,
            BuzzerEvent.isTone, UINT8_MOD, MAX_TONES]
      · simp [AlarmTone.play, hf, ho, he, AlarmTone.remainingNotes, hi]

theorem apply_remainingNotes (c : AlarmCall) (a : AlarmTone)
    (hv : a.alarmFinished = true ∨ a.tonesIndex ≤ 1) (hr : c.resets a = false) :
    ((c.apply a).1.alarmFinished = true ∨ (c.apply a).1.tonesIndex ≤ 1) ∧
      (c.apply a).2.filter BuzzerEvent.isTone ++ (c.apply a).1.remainingNotes
        = a.remainingNotes := by
  cases c with
  | play tCheck tStart => exact play_remainingNotes a tCheck tStart hv
  | playAlarm tDelay tDelayStart tTone tToneStart =>
    have h : a.delayTimer.elapsed tDelay ALARM_DELAY_MS = false := hr
    simp only [AlarmCall.apply]
    rw [playAlarm_without_reset a tDelay tDelayStart tTone tToneStart h]
    exact play_remainingNotes a tTone tToneStart hv

theorem eventsBeforeReset_prefix (calls : List AlarmCall) :
    ∀ a : AlarmTone, (a.alarmFinished = true ∨ a.tonesIndex ≤ 1) →
      (eventsBeforeReset a calls).filter BuzzerEvent.isTone <+: a.remainingNotes := by
  induction calls with
  | nil =>
    intro a _
    exact List.nil_prefix
  | cons c rest ih =>
    intro a hv
    cases hr : c.resets a with
    | true =>
      simp only [eventsBeforeReset, hr, if_true]
      exact List.nil_prefix
    | false =>
      obtain ⟨hv2, hrem⟩ := apply_remainingNotes c a hv hr
      have h1 := ih (c.apply a).1 hv2
      simp only [eventsBeforeReset, hr, Bool.false_eq_true, if_false, List.filter_append]
      rw [← hrem]
      exact (List.prefix_append_right_inj _).mpr h1

/-- C14: starting from a fresh `AlarmTone` (`alarmFinished = false`,
`tonesIndex = 0`; `outputTone = false` is not even needed), for every sequence of `play()` and
`playAlarm()` calls at any clock readings, the `tone(...)` calls made before the
first call that runs `reset()` are a prefix of `tones[0]`, `tones[1]`, so at most
two; a call runs `reset()` only if it is a `playAlarm()` whose repeat-delay timer
reports at least `ALARM_DELAY_MS = 1500` elapsed, and any other call is `play()`
alone, which does nothing once the sequence has halted. -/
theorem C14_two_notes_per_cycle (a : AlarmTone) (calls : List AlarmCall)
    (h2 : a.alarmFinished = false) (h3 : a.tonesIndex = 0) :
    (eventsBeforeReset a calls).filter BuzzerEvent.isTone
        <+: [BuzzerEvent.tone a.pin (a.tones.get? 0) a.toneDuration,
              BuzzerEvent.tone a.pin (a.tones.get? 1) a.toneDuration] ∧
      ((eventsBeforeReset a calls).filter BuzzerEvent.isTone).length ≤ 2 ∧
      (∀ (b : AlarmTone) (c : AlarmCall), c.resets b = true →
        ∃ tDelay tDelayStart tTone tToneStart : Nat,
          c = AlarmCall.playAlarm tDelay tDelayStart tTone tToneStart ∧
            sub32 tDelay b.delayTimer.timeStamp ≥ 1500) ∧
      (∀ (b : AlarmTone) (c : AlarmCall), c.resets b = false → b.alarmFinished = true →
        c.apply b = (b, [])) := by
  have hp := eventsBeforeReset_prefix calls a (Or.inr (by omega))
  have hrem : a.remainingNotes
      = [BuzzerEvent.tone a.pin (a.tones.get? 0) a.toneDuration,
          BuzzerEvent.tone a.pin (a.tones.get? 1) a.toneDuration] := by
    simp [AlarmTone.remainingNotes, h2, h3, AlarmTone.noteEvent]
  rw [hrem] at hp
  refine ⟨hp, ?_, ?_, ?_⟩
  · have hl := hp.length_le
    simpa using hl
  · intro b c hr
    cases c with
    | play tCheck tStart => simp [AlarmCall.resets] at hr
    | playAlarm tDelay tDelayStart tTone tToneStart =>
      refine ⟨tDelay, tDelayStart, tTone, tToneStart, rfl, ?_⟩
      simp only [AlarmCall.resets, TimerHelper.elapsed, ALARM_DELAY_MS] at hr
      by_contra hlt
      simp [hlt] at hr
  · intro b c hr hf
    cases c with
    | play tCheck tStart => exact play_finished b tCheck tStart hf
    | playAlarm tDelay tDelayStart tTone tToneStart =>
      have h : b.delayTimer.elapsed tDelay ALARM_DELAY_MS = false := hr
      simp only [AlarmCall.apply]
      rw [playAlarm_without_reset b tDelay tDelayStart tTone tToneStart h]
      exact play_finished b tTone tToneStart hf

/-- Witness of C14: on the constructed alarm object, six `playAlarm()` calls
within the first 1400 ms play exactly the notes 698 Hz and 880 Hz. -/
theorem C14_two_notes_per_cycle_witness :
    ((eventsBeforeReset freshAlarm firstCycleCalls).filter BuzzerEvent.isTone
        <+: [BuzzerEvent.tone freshAlarm.pin (freshAlarm.tones.get? 0) freshAlarm.toneDuration,
              BuzzerEvent.tone freshAlarm.pin (freshAlarm.tones.get? 1)
                freshAlarm.toneDuration]) ∧
      (eventsBeforeReset freshAlarm firstCycleCalls).filter BuzzerEvent.isTone
        = [BuzzerEvent.tone 13 (some 698) 150, BuzzerEvent.tone 13 (some 880) 150] :=
  ⟨(C14_two_notes_per_cycle freshAlarm firstCycleCalls (by decide) (by decide)).1, by decide⟩

/-- C15 at the failing input: after one `playAlarm()` at clock reading 100 on
the constructed alarm object the first note has been played and the note index
is 1; `reset()` leaves the index at 1, and the next tone, from `play()` directly
or from a `playAlarm()` whose repeat delay has elapsed, is `tones[1]` = 880 Hz,
not `tones[0]` = 698 Hz. -/
theorem C15_reset_keeps_note_index :
    (freshAlarm.playAlarm 100 100 100 100).2 = [BuzzerEvent.tone 13 (some 698) 150] ∧
      afterFirstNote.tonesIndex = 1 ∧
      afterFirstNote.reset.tonesIndex = 1 ∧
      (afterFirstNote.reset.play 300 300).2 = [BuzzerEvent.tone 13 (some 880) 150] ∧
      (AlarmCall.playAlarm 60000 60000 60000 60000).resets afterFirstNote = true ∧
      (afterFirstNote.playAlarm 60000 60000 60000 60000).2
        = [BuzzerEvent.tone 13 (some 880) 150] := by
  decide

/-! ## Bounds of the note index -/

theorem construct_indexInv (pin toneA toneB : Nat) :
    IndexInv (AlarmTone.construct pin toneA toneB) := by
  have h0 : (AlarmTone.construct pin toneA toneB).tonesIndex = 0 := rfl
  refine ⟨?_, rfl⟩
  rw [h0]
  decide

theorem read_inBounds (a : AlarmTone) (h : IndexInv a) :
    ∃ f : Nat, a.tones.get? a.tonesIndex = some f := by
  obtain ⟨hi, hl⟩ := h
  have hlt : a.tonesIndex < a.tones.length := by
    rw [hl]
    exact hi
  exact ⟨a.tones.get ⟨a.tonesIndex, hlt⟩, List.get?_eq_get hlt⟩

theorem play_indexInv (a : AlarmTone) (tCheck tStart : Nat) (h : IndexInv a) :
    IndexInv (a.play tCheck tStart).1 ∧
      (a.play tCheck tStart).2.all BuzzerEvent.inBounds = true := by
  obtain ⟨f, hf⟩ := read_inBounds a h
  obtain ⟨hi, hl⟩ := h
  simp only [MAX_TONES] at hi
  cases hfin : a.alarmFinished with
  | true =>
    rw [play_finished a tCheck tStart hfin]
    exact ⟨⟨hi, hl⟩, rfl⟩
  | false =>
    cases ho : a.outputTone with
    | true =>
      by_cases he : a.toneTimer.elapsed tCheck a.toneDuration = true
      · simp only [AlarmTone.play, hfin, ho, he, if_true]
        exact ⟨⟨hi, hl⟩, rfl⟩
      · simp only [AlarmTone.play, hfin, ho, he]
        exact ⟨⟨hi, hl⟩, rfl⟩
    | false =>
      by_cases he : a.toneTimer.elapsed tCheck a.pauseBetweenNotes = true
      · rcases Nat.lt_or_ge a.tonesIndex 1 with h0 | h1
        · have hz : a.tonesIndex = 0 := by omega
          rw [hz] at hf
          have e : a.play tCheck tStart
              = ({ a with outputTone := true, tonesIndex := 1,
                          toneTimer := a.toneTimer.start tStart },
                  [BuzzerEvent.tone a.pin (some f) a.toneDuration]) := by
            have hf2 : a.tones[0]? = some f := by simpa using hf
            simp [AlarmTone.play, hfin, ho, he, hz, hf2, UINT8_MOD, MAX_TONES]
          rw [e]
          exact ⟨⟨(by decide : (1 : Nat) < MAX_TONES), hl⟩, rfl⟩
        · have hone : a.tonesIndex = 1 := by omega
          rw [hone] at hf
          have e : a.play tCheck tStart
              = ({ a with outputTone := true, tonesIndex := 0, alarmFinished := true,
                          toneTimer := a.toneTimer.start tStart },
                  [BuzzerEvent.tone a.pin (some f) a.toneDuration]) := by
            have hf2 : a.tones[1]? = some f := by simpa using hf
            simp [AlarmTone.play, hfin, ho, he, hone, hf2, UINT8_MOD, MAX_TONES]
          rw [e]
          exact ⟨⟨(by decide : (0 : Nat) < MAX_TONES), hl⟩, rfl⟩
      · simp only [AlarmTone.play, hfin, ho, he]
        exact ⟨⟨hi, hl⟩, rfl⟩

theorem apply_indexInv (c : AlarmCall) (a : AlarmTone) (h : IndexInv a) :
    IndexInv (c.apply a).1 ∧ (c.apply a).2.all BuzzerEvent.inBounds = true := by
  cases c with
  | play tCheck tStart => exact play_indexInv a tCheck tStart h
  | playAlarm tDelay tDelayStart tTone tToneStart =>
    simp only [AlarmCall.apply]
    cases hd : a.delayTimer.elapsed tDelay ALARM_DELAY_MS with
    | false =>
      rw [playAlarm_without_reset a tDelay tDelayStart tTone tToneStart hd]
      exact play_indexInv a tTone tToneStart h
    | true =>
      rw [playAlarm_with_reset a tDelay tDelayStart tTone tToneStart hd]
      exact play_indexInv _ tTone tToneStart h

theorem runCalls_cons (a : AlarmTone) (c : AlarmCall) (rest : List AlarmCall) :
    runCalls a (c :: rest) = runCalls (c.apply a).1 rest := rfl

theorem run_indexInv (calls : List AlarmCall) :
    ∀ a : AlarmTone, IndexInv a →
      IndexInv (runCalls a calls) ∧ (runEvents a calls).all BuzzerEvent.inBounds = true := by
  induction calls with
  | nil =>
    intro a h
    exact ⟨h, rfl⟩
  | cons c rest ih =>
    intro a h
    obtain ⟨h1, h2⟩ := apply_indexInv c a h
    obtain ⟨h3, h4⟩ := ih (c.apply a).1 h1
    rw [runCalls_cons]
    refine ⟨h3, ?_⟩
    simp only [runEvents, List.all_append, h2, h4, Bool.and_self]

/-- C21: in every `AlarmTone` state reached from the constructor by any
sequence of `playAlarm()` calls (and of direct `play()` calls) at any clock
readings, `tonesIndex < MAX_TONES = 2` and the array has two entries, so the
read `tones[tonesIndex]` of the next call finds an entry; and no `tone(...)`
call made during the whole sequence has read outside the array. -/
theorem C21_note_index_in_bounds (pin toneA toneB : Nat) (calls : List AlarmCall) :
    (runCalls (AlarmTone.construct pin toneA toneB) calls).tonesIndex < MAX_TONES ∧
      MAX_TONES = 2 ∧
      (runCalls (AlarmTone.construct pin toneA toneB) calls).tones.length = MAX_TONES ∧
      (∃ f : Nat,
        (runCalls (AlarmTone.construct pin toneA toneB) calls).tones.get?
            (runCalls (AlarmTone.construct pin toneA toneB) calls).tonesIndex = some f) ∧
      (runEvents (AlarmTone.construct pin toneA toneB) calls).all BuzzerEvent.inBounds = true := by
  obtain ⟨h1, h2⟩ := run_indexInv calls _ (construct_indexInv pin toneA toneB)
  exact ⟨h1.1, rfl, h1.2, read_inBounds _ h1, h2⟩

/-- Witness of C21: over several alarm cycles, one of them reset after its first
note, the index stays below 2 and every tone read an entry of the array. -/
theorem C21_note_index_in_bounds_witness :
    (runCalls (AlarmTone.construct 13 NOTE_F5 NOTE_A5) severalCycles).tonesIndex < MAX_TONES ∧
      (runEvents (AlarmTone.construct 13 NOTE_F5 NOTE_A5) severalCycles).all
        BuzzerEvent.inBounds = true :=
  ⟨(C21_note_index_in_bounds 13 NOTE_F5 NOTE_A5 severalCycles).1,
    (C21_note_index_in_bounds 13 NOTE_F5 NOTE_A5 severalCycles).2.2.2.2⟩

end KitchenClock
